import Mathlib

/-!
Shallow embedding of the task execution engine of the gapps-integrations
repository: the task wrapper (src/utils/decorators.py), the run context and
orchestrator (src/utils/base_runner.py) and the registration step
(src/utils/task_registry.py), together with theorems settling the claims
about dependency gating, return-value validation, violation auto-reporting,
task ordering, subset filtering, registration uniqueness and status
invariants.
-/

/-- Association list lookup, modelling a Python dict read (dict.get). -/
def alookup {α : Type} : List (String × α) → String → Option α
  | [], _ => Option.none
  | (k1, v) :: rest, k => if k1 == k then some v else alookup rest k

/-- Association list update, modelling a Python dict write: an existing key
keeps its position, a new key is appended (Python dicts preserve insertion
order). -/
def aset {α : Type} : List (String × α) → String → α → List (String × α)
  | [], k, v => [(k, v)]
  | (k1, v1) :: rest, k, v =>
      if k1 == k then (k1, v) :: rest else (k1, v1) :: aset rest k v

/-- Association list membership, modelling the Python `in` test on a dict. -/
def acontains {α : Type} (m : List (String × α)) (k : String) : Bool :=
  (alookup m k).isSome

/-- Association list key removal, modelling Python dict.pop. -/
def aremove {α : Type} : List (String × α) → String → List (String × α)
  | [], _ => []
  | (k1, v1) :: rest, k =>
      if k1 == k then rest else (k1, v1) :: aremove rest k

/-- A single quote character, used to build the error strings of the source
verbatim. -/
def squot : String := String.singleton (Char.ofNat 39)

/-- Wraps a word in single quotes, as the f-strings of decorators.py do. -/
def q (s : String) : String := squot ++ s ++ squot

/-- Python values, as far as the engine inspects them: the wrapper only ever
distinguishes None, bool, str, list and dict (plus int for completeness of
the data payloads carried around by tasks). -/
inductive Value : Type where
  | vNone : Value
  | vBool : Bool → Value
  | vInt : Int → Value
  | vStr : String → Value
  | vList : List Value → Value
  | vDict : List (String × Value) → Value

/-- The Python type name of a value, as rendered by type(x).__name__ in the
validation error messages of decorators.py. -/
def pyType : Value → String
  | .vNone => "NoneType"
  | .vBool _ => "bool"
  | .vInt _ => "int"
  | .vStr _ => "str"
  | .vList _ => "list"
  | .vDict _ => "dict"

/-- Result of a successful return-value validation: the dict to store (after
popping the violation key), the extracted violation flag, and the unexpected
keys that trigger a non-fatal warning. -/
structure Validated : Type where
  stored : List (String × Value)
  violation : Bool
  unexpectedKeys : List String

/-- The keys the wrapper expects in a task return value
(decorators.py line 99). -/
def expectedKeys : List String := ["data", "violation", "message"]

/-- Return-value validation of the task wrapper, decorators.py lines 68-108:
the value must be a dict; the key data must be present and bound to a dict or
a list; the key violation, read with default False, must be a bool; the key
message, read with default None, must be a str when it is not None; keys
outside the expected set are collected for a non-fatal warning; finally the
violation key is popped with default False. Any check failure raises
ValueError with the message built here. -/
def validateReturn : Value → Except String Validated
  | .vDict kvs =>
      if !(acontains kvs "data") then
        Except.error ("Task return must include " ++ q "data" ++ " key")
      else
        match alookup kvs "data" with
        | some (.vDict _) | some (.vList _) =>
            match (alookup kvs "violation").getD (.vBool false) with
            | .vBool b =>
                match (alookup kvs "message").getD .vNone with
                | .vNone | .vStr _ =>
                    Except.ok
                      { stored := aremove kvs "violation",
                        violation := b,
                        unexpectedKeys :=
                          (kvs.map (fun p => p.1)).filter
                            (fun k => !(expectedKeys.contains k)) }
                | other =>
                    Except.error
                      (q "message" ++ " must be a str, got " ++ pyType other)
            | other =>
                Except.error
                  (q "violation" ++ " must be a bool, got " ++ pyType other)
        | _ => Except.error (q "data" ++ " must be a dict or list")
  | other =>
      Except.error ("Task must return a dict, got " ++ pyType other)

/-- True when a value is a dict or a list, the shapes accepted for the data
payload (decorators.py line 79). -/
def isDictOrList : Value → Bool
  | .vDict _ => true
  | .vList _ => true
  | _ => false

/-- Immutable task metadata attached by the task decorator
(decorators.py lines 146-155). -/
structure TaskMeta : Type where
  name : String
  title : String
  description : Option String
  enabled : Bool
  ttype : String
  order : Int
  severity : Option String
  dependsOn : List String

/-- Builds the metadata record exactly as the decorator does: when no order
is given, insights default to 500 and every other type to 100; a missing
depends_on defaults to the empty list (decorators.py lines 146-155). -/
def mkTaskMeta (name title : String) (description : Option String)
    (enabled : Bool) (ttype : String) (order : Option Int)
    (severity : Option String) (dependsOn : Option (List String)) : TaskMeta :=
  { name := name, title := title, description := description,
    enabled := enabled, ttype := ttype,
    order := order.getD (if ttype == "insight" then 500 else 100),
    severity := severity, dependsOn := dependsOn.getD [] }

/-- The formatted view of one task run, the dict built by
TaskContext.format_result (base_runner.py lines 283-296). -/
structure ResultRecord : Type where
  success : Bool
  output : Value
  errors : List String
  traceback : Option String
  logs : List String
  isViolation : Bool
  status : String
  ttype : String
  controls : List (String × String)
  startTime : Option Nat
  endTime : Option Nat
  duration : Option Nat

/-- An entry of the ctx._results dict. The wrapper stores the formatted dict
of the task (rec); the circuit-failure branch of the orchestrator stores the
bare boolean False through the chained assignment of base_runner.py line 375
(pyBool). -/
inductive StoredResult : Type where
  | record : ResultRecord → StoredResult
  | pyBool : Bool → StoredResult

/-- The per-run mutable state of TaskContext (base_runner.py lines 12-27),
extended with observation channels for the parts of the engine that act on
the outside world: warnings records logger.warning lines and reportAttempts
records each invocation of create_violation. Wall-clock reads are modelled
by the counter clock. -/
structure TaskContext : Type where
  baseCtx : List (String × Value)
  results : List (String × StoredResult)
  rawResults : List (String × Value)
  errors : List (String × List String)
  tracebacks : List (String × String)
  logs : List (String × List String)
  violations : List (String × Bool)
  status : List (String × String)
  startTimes : List (String × Nat)
  endTimes : List (String × Nat)
  metas : List (String × TaskMeta)
  controlsMap : List (String × List (String × String))
  currentTask : Option String
  clock : Nat

/-- A fresh context for one run (TaskContext.__init__): every per-task map is
empty; the control registry is supplied by the environment because the
mapping file is loaded from outside the engine. -/
def TaskContext.init (base : List (String × Value))
    (controls : List (String × List (String × String))) : TaskContext :=
  { baseCtx := base, results := [], rawResults := [], errors := [],
    tracebacks := [], logs := [], violations := [], status := [],
    startTimes := [], endTimes := [], metas := [], controlsMap := controls,
    currentTask := Option.none, clock := 0 }

/-- Warning lines and report attempts live outside TaskContext in the source
(the log sink and the network); they are threaded separately so that context
operations stay exactly the dict updates of base_runner.py. -/
structure RunLog : Type where
  warnings : List String
  reportAttempts : List String

/-- The empty observation log. -/
def RunLog.init : RunLog := { warnings := [], reportAttempts := [] }

/-- Resolves an optional task name against the current task, defaulting to
"unknown" (base_runner.py lines 45-46). -/
def TaskContext.resolveTaskName (ctx : TaskContext) (t : Option String) : String :=
  t.getD (ctx.currentTask.getD "unknown")

/-- Reads a base-context value with a default (TaskContext.base). -/
def TaskContext.base (ctx : TaskContext) (k : String) (d : Value) : Value :=
  (alookup ctx.baseCtx k).getD d

/-- Status read with default queued (base_runner.py lines 48-50). -/
def TaskContext.get_status (ctx : TaskContext) (t : Option String) : String :=
  (alookup ctx.status (ctx.resolveTaskName t)).getD "queued"

/-- Raw-result read with an empty dict as default
(base_runner.py lines 52-54). -/
def TaskContext.get_raw_result (ctx : TaskContext) (t : Option String) : Value :=
  (alookup ctx.rawResults (ctx.resolveTaskName t)).getD (.vDict [])

/-- Stores a raw result and, when the violation argument is a bool, also the
violation flag (base_runner.py lines 56-60). -/
def TaskContext.set_result (ctx : TaskContext) (result : Value)
    (t : Option String) (violation : Option Bool) : TaskContext :=
  let name := ctx.resolveTaskName t
  let ctx1 := { ctx with rawResults := aset ctx.rawResults name result }
  match violation with
  | some b => { ctx1 with violations := aset ctx1.violations name b }
  | Option.none => ctx1

/-- Result-existence check used by the dependency gate
(base_runner.py lines 119-121). -/
def TaskContext.has_result (ctx : TaskContext) (t : Option String) : Bool :=
  acontains ctx.results (ctx.resolveTaskName t)

/-- Appends an error to the per-task error list (base_runner.py
lines 123-125). -/
def TaskContext.add_error (ctx : TaskContext) (e : String)
    (t : Option String) : TaskContext :=
  let name := ctx.resolveTaskName t
  { ctx with errors := aset ctx.errors name ((alookup ctx.errors name).getD [] ++ [e]) }

/-- Per-task error list read (base_runner.py lines 127-129). -/
def TaskContext.get_errors (ctx : TaskContext) (t : Option String) : List String :=
  (alookup ctx.errors (ctx.resolveTaskName t)).getD []

/-- Appends a timestamped log line (base_runner.py lines 131-136); the
timestamp is the abstract clock value. -/
def TaskContext.add_log (ctx : TaskContext) (line : String)
    (t : Option String) : TaskContext :=
  let name := ctx.resolveTaskName t
  { ctx with
      logs := aset ctx.logs name
        ((alookup ctx.logs name).getD [] ++ ["[" ++ toString ctx.clock ++ "] " ++ line]),
      clock := ctx.clock + 1 }

/-- Per-task log read (base_runner.py lines 138-140). -/
def TaskContext.get_logs (ctx : TaskContext) (t : Option String) : List String :=
  (alookup ctx.logs (ctx.resolveTaskName t)).getD []

/-- Stores the traceback of a failure (base_runner.py lines 142-144). -/
def TaskContext.set_traceback (ctx : TaskContext) (tb : String)
    (t : Option String) : TaskContext :=
  { ctx with tracebacks := aset ctx.tracebacks (ctx.resolveTaskName t) tb }

/-- Traceback read (base_runner.py lines 146-148). -/
def TaskContext.get_traceback (ctx : TaskContext) (t : Option String) : Option String :=
  alookup ctx.tracebacks (ctx.resolveTaskName t)

/-- Control references of a task, resolved through the registry inversion;
a missing name yields the empty list (insight_registry.py lines 26-27). -/
def TaskContext.get_controls (ctx : TaskContext) (t : Option String) :
    List (String × String) :=
  (alookup ctx.controlsMap (ctx.resolveTaskName t)).getD []

/-- Sets the per-task violation flag (base_runner.py lines 154-157). -/
def TaskContext.set_violation (ctx : TaskContext) (b : Bool)
    (t : Option String) : TaskContext :=
  { ctx with violations := aset ctx.violations (ctx.resolveTaskName t) b }

/-- Reads the per-task violation flag, default false
(base_runner.py lines 159-162). -/
def TaskContext.get_violation (ctx : TaskContext) (t : Option String) : Bool :=
  (alookup ctx.violations (ctx.resolveTaskName t)).getD false

/-- The formatted result of a task (base_runner.py lines 263-296): success
and type come from the stored results entry when one exists, defaulting to
True and collector otherwise; every other field is recomputed from the
per-task maps. When the stored entry is the bare boolean written by the
circuit branch, the Python attribute access dict.get on it raises
AttributeError; that crash is modelled as Option.none. -/
def TaskContext.formatFields (ctx : TaskContext) (name : String)
    (success : Bool) (ttype : String) : ResultRecord :=
  { success := success,
    output := ctx.get_raw_result (some name),
    errors := ctx.get_errors (some name),
    traceback := alookup ctx.tracebacks name,
    logs := ctx.get_logs (some name),
    isViolation := ctx.get_violation (some name),
    status := ctx.get_status (some name),
    ttype := ttype,
    controls := ctx.get_controls (some name),
    startTime := alookup ctx.startTimes name,
    endTime := alookup ctx.endTimes name,
    duration :=
      match alookup ctx.startTimes name, alookup ctx.endTimes name with
      | some s, some e => some (e - s)
      | _, _ => Option.none }

/-- Dispatch of format_result on the stored results entry. -/
def TaskContext.format_result (ctx : TaskContext) (t : Option String) :
    Option ResultRecord :=
  let name := ctx.resolveTaskName t
  match alookup ctx.results name with
  | some (.pyBool _) => Option.none
  | some (.record r) => some (ctx.formatFields name r.success r.ttype)
  | Option.none => some (ctx.formatFields name true "collector")

/-- Full result read; identical to format_result
(base_runner.py lines 62-71). -/
def TaskContext.get_result (ctx : TaskContext) (t : Option String) :
    Option ResultRecord :=
  ctx.format_result t

/-- The data dict of a task result (base_runner.py lines 73-88). -/
def TaskContext.get_data (ctx : TaskContext) (t : Option String) : Value :=
  match ctx.format_result t with
  | some r =>
      match r.output with
      | .vDict kvs => (alookup kvs "data").getD (.vDict [])
      | _ => .vDict []
  | Option.none => .vDict []

/-- Success read through the formatted result (base_runner.py lines 90-103);
Option.none models the AttributeError crash of format_result. -/
def TaskContext.succeeded (ctx : TaskContext) (t : Option String) : Option Bool :=
  (ctx.format_result t).map (fun r => r.success)

/-- A task body: a function of the run context that either returns a value or
raises; it may also have mutated the context through the accessor methods. -/
def TaskBody : Type := TaskContext → TaskContext × Except String Value

/-- The environment of one run: the outcome of the HTTP POST performed by
create_violation for each task name. The enriched payload that
create_violation assembles (base_runner.py lines 204-224) is data sent to the
external job service and does not feed back into the engine, so only the
request outcome is modelled. -/
structure WrapperEnv : Type where
  reportPost : String → Except String Unit

/-- Outcome of one wrapped task execution: the mutated context, the
observation log, and either the final formatted result or an exception that
escaped the wrapper. -/
structure WrapOut : Type where
  ctx : TaskContext
  log : RunLog
  res : Except String ResultRecord

/-- Records a violation on the server (base_runner.py lines 164-252): the
invocation is recorded as a report attempt, the formatted result is read to
build the payload (raising AttributeError when the stored entry is the bare
boolean of the circuit branch), and the POST outcome comes from the
environment; every request failure is re-raised. -/
def TaskContext.create_violation (env : WrapperEnv) (ctx : TaskContext)
    (log : RunLog) (t : Option String) : RunLog × Except String Unit :=
  let name := ctx.resolveTaskName t
  let log1 := { log with reportAttempts := log.reportAttempts ++ [name] }
  match ctx.format_result (some name) with
  | Option.none => (log1, Except.error "AttributeError")
  | some _out => (log1, env.reportPost name)

/-- State mutations at wrapper entry (decorators.py lines 24-30): bind the
current task, mark it in progress, record the start time and store the task
metadata on the context. -/
def wrapperEntry (meta : TaskMeta) (ctx : TaskContext) : TaskContext :=
  { ctx with currentTask := some meta.name,
             status := aset ctx.status meta.name "in_progress",
             startTimes := aset ctx.startTimes meta.name ctx.clock,
             metas := aset ctx.metas meta.name meta,
             clock := ctx.clock + 1 }

/-- The fail-closed branch of the dependency gate (decorators.py lines 37-47
and 52-62): record the error, mark the task skipped with an end time, build
the formatted result, force success to False and the declared type, store it
and return it. The warn flag tells whether the source line logs at warning
level (the failed-dependency branch) rather than error level. -/
def gateFail (meta : TaskMeta) (msg : String) (warn : Bool)
    (ctx : TaskContext) (log : RunLog) : WrapOut :=
  let log1 :=
    if warn then
      { log with warnings := log.warnings ++ ["[" ++ meta.name ++ "] " ++ msg] }
    else log
  let ctx1 := ctx.add_error msg Option.none
  let ctx2 := { ctx1 with status := aset ctx1.status meta.name "skipped",
                          endTimes := aset ctx1.endTimes meta.name ctx1.clock,
                          clock := ctx1.clock + 1 }
  match ctx2.format_result (some meta.name) with
  | Option.none => { ctx := ctx2, log := log1, res := Except.error "AttributeError" }
  | some rd =>
      let rd1 := { rd with success := false, ttype := meta.ttype }
      { ctx := { ctx2 with results := aset ctx2.results meta.name (.record rd1) },
        log := log1, res := Except.ok rd1 }

/-- Outcome of the dependency gate: either control passes to the task body or
the wrapper halts with the skipped result (or a crash). -/
inductive GateResult : Type where
  | pass : TaskContext → RunLog → GateResult
  | halt : WrapOut → GateResult

/-- The dependency gate (decorators.py lines 33-62): dependencies are checked
in declared order; a dependency without a recorded result fails closed with
the was-not-executed error, one whose recorded success is false fails closed
with the failed error; the first failing dependency stops the loop. -/
def depGate (meta : TaskMeta) (log : RunLog) :
    List String → TaskContext → GateResult
  | [], ctx => .pass ctx log
  | dep :: rest, ctx =>
      if ctx.has_result (some dep) then
        match ctx.get_result (some dep) with
        | Option.none =>
            .halt { ctx := ctx, log := log, res := Except.error "AttributeError" }
        | some depRes =>
            if depRes.success then depGate meta log rest ctx
            else
              .halt (gateFail meta
                ("Dependency " ++ q dep ++ " failed - skipping task") true ctx log)
      else
        .halt (gateFail meta
          ("Dependency " ++ q dep ++ " was not executed") false ctx log)

/-- The except branch of the wrapper body call (decorators.py lines 116-124):
the error message is recorded and the traceback stored. -/
def applyFailure (ctx : TaskContext) (e : String) : TaskContext :=
  (ctx.add_error e Option.none).set_traceback e Option.none

/-- The warning line for unexpected keys (decorators.py lines 101-105). -/
def unexpectedWarn (name : String) (ks : List String) : String :=
  "[" ++ name ++ "] Unexpected keys in return value: " ++ String.intercalate ", " ks

/-- The try block of the wrapper (decorators.py lines 64-124): invoke the
body, validate the returned value, warn about unexpected keys, store the
result and the violation flag; any body exception or validation failure is
absorbed and recorded. Returns the context, the log and the success flag. -/
def runBodyValidate (meta : TaskMeta) (body : TaskBody) (ctx : TaskContext)
    (log : RunLog) : TaskContext × RunLog × Bool :=
  let step := body ctx
  match step.2 with
  | Except.error e => (applyFailure step.1 e, log, false)
  | Except.ok v =>
      match validateReturn v with
      | Except.error e => (applyFailure step.1 e, log, false)
      | Except.ok out =>
          let log1 :=
            if out.unexpectedKeys.isEmpty then log
            else { log with
                     warnings := log.warnings ++ [unexpectedWarn meta.name out.unexpectedKeys] }
          (step.1.set_result (.vDict out.stored) Option.none (some out.violation), log1, true)

/-- Wrapper finalization (decorators.py lines 126-144): mark the task done
with an end time; for a successful insight task with the violation flag set,
auto-create the violation, absorbing a reporting failure into an extra error;
then build the final formatted result, force the success flag and declared
type, store it and return it. -/
def wrapperFinalize (env : WrapperEnv) (meta : TaskMeta) (success : Bool)
    (ctx : TaskContext) (log : RunLog) : WrapOut :=
  let ctx1 := { ctx with status := aset ctx.status meta.name "done",
                         endTimes := aset ctx.endTimes meta.name ctx.clock,
                         clock := ctx.clock + 1 }
  let step :=
    if meta.ttype == "insight" && success && ctx1.get_violation (some meta.name) then
      match TaskContext.create_violation env ctx1 log (some meta.name) with
      | (log1, Except.ok _) => (ctx1, log1)
      | (log1, Except.error e) =>
          (ctx1.add_error ("Failed to create violation: " ++ e) Option.none, log1)
    else (ctx1, log)
  match step.1.format_result (some meta.name) with
  | Option.none => { ctx := step.1, log := step.2, res := Except.error "AttributeError" }
  | some rd =>
      let rd1 := { rd with success := success, ttype := meta.ttype }
      { ctx := { step.1 with results := aset step.1.results meta.name (.record rd1) },
        log := step.2, res := Except.ok rd1 }

/-- One wrapped task execution (the wrapper of decorators.py lines 24-144):
entry bookkeeping, dependency gate, body invocation with validation, and
finalization. -/
def runWrapper (env : WrapperEnv) (meta : TaskMeta) (body : TaskBody)
    (ctx : TaskContext) (log : RunLog) : WrapOut :=
  let ctx0 := wrapperEntry meta ctx
  match depGate meta log meta.dependsOn ctx0 with
  | .halt out => out
  | .pass ctx1 log1 =>
      match runBodyValidate meta body ctx1 log1 with
      | (ctx2, log2, success) => wrapperFinalize env meta success ctx2 log2

/-- The except branch of StageTwo.start (base_runner.py lines 364-376)
together with the store on line 376. Python executes two add_error calls,
computes result_data = ctx.format_result() (default task name, so against the
current task), and then runs the chained assignment
task_output = result_data["success"] = False: both targets receive the
assigned value, so task_output is bound to the bare boolean False, and line
376 stores that boolean as the results entry of the task. When format_result
itself raises (stored entry already a bare boolean), the exception escapes
the run, modelled as Option.none. -/
def circuitCatch (ctx : TaskContext) (taskName e : String) : Option TaskContext :=
  let ctx1 := ctx.add_error
    ("Circuit catch. Error while trying to execute the task:" ++ taskName) Option.none
  let ctx2 := ctx1.add_error e Option.none
  match ctx2.format_result Option.none with
  | Option.none => Option.none
  | some _resultData =>
      some { ctx2 with results := aset ctx2.results taskName (.pyBool false) }

/-- A task function attached to the StageTwo class: the attribute name on the
class (the function __name__ under which setattr stores it), the decorator
metadata and the body. -/
structure RegisteredTask : Type where
  attrName : String
  meta : TaskMeta
  body : TaskBody

/-- One iteration of the task loop of StageTwo.start (base_runner.py lines
354-376): the wrapper runs inside a single-slot executor with a deadline.
When the wrapper raises or the deadline elapses (the timesOut oracle), the
circuit branch runs; because the executor shutdown waits for the worker
thread, the wrapper mutations are in place before the circuit branch
executes. Otherwise line 376 re-stores the returned result. -/
def execTask (env : WrapperEnv) (timesOut : String → Bool)
    (t : RegisteredTask) (ctx : TaskContext) (log : RunLog) :
    Option (TaskContext × RunLog) :=
  let out := runWrapper env t.meta t.body ctx log
  match out.res with
  | Except.error e =>
      (circuitCatch out.ctx t.meta.name e).map (fun c => (c, out.log))
  | Except.ok rd =>
      if timesOut t.meta.name then
        (circuitCatch out.ctx t.meta.name "TimeoutError").map (fun c => (c, out.log))
      else
        some ({ out.ctx with results := aset out.ctx.results t.meta.name (.record rd) },
              out.log)

/-- The task loop of StageTwo.start (base_runner.py lines 348-376): a task
whose name is outside a non-empty requested subset is neither executed nor
recorded; every other task runs through execTask. -/
def runTasks (env : WrapperEnv) (timesOut : String → Bool)
    (requested : List String) :
    List RegisteredTask → TaskContext → RunLog → Option (TaskContext × RunLog)
  | [], ctx, log => some (ctx, log)
  | t :: rest, ctx, log =>
      if !requested.isEmpty && !requested.contains t.meta.name then
        runTasks env timesOut requested rest ctx log
      else
        match execTask env timesOut t ctx log with
        | Option.none => Option.none
        | some (ctx1, log1) => runTasks env timesOut requested rest ctx1 log1

/-- Stable insertion step: x is placed after every element that compares
less-or-equal to it, matching the stability of the Python list sort. -/
def insertLe {α : Type} (le : α → α → Bool) (x : α) : List α → List α
  | [] => [x]
  | y :: ys => if le y x then y :: insertLe le x ys else x :: y :: ys

/-- Stable sort by a boolean less-or-equal relation: elements are inserted
left to right, so equal elements keep their input order. -/
def sortLe {α : Type} (le : α → α → Bool) (l : List α) : List α :=
  l.foldl (fun acc x => insertLe le x acc) []

/-- Lexicographic less-or-equal on character lists, by code point. -/
def strLeAux : List Char → List Char → Bool
  | [], _ => true
  | _ :: _, [] => false
  | a :: as, b :: bs =>
      if a.toNat < b.toNat then true
      else if b.toNat < a.toNat then false
      else strLeAux as bs

/-- Lexicographic less-or-equal on strings, the order dir() lists class
attribute names in. -/
def strLe (a b : String) : Bool := strLeAux a.data b.data

/-- The class attribute listing of StageTwo.start line 340: dir(self) returns
the attribute names sorted alphabetically, so the task methods are enumerated
by attribute name, not by registration order. -/
def dirOrder (cls : List RegisteredTask) : List RegisteredTask :=
  sortLe (fun a b => strLe a.attrName b.attrName) cls

/-- The sort key of StageTwo.start line 346: the order field of the task
metadata (always present, set by the decorator). -/
def orderLe (a b : RegisteredTask) : Bool :=
  decide (a.meta.order ≤ b.meta.order)

/-- The task selection and ordering of StageTwo.start lines 338-346: list the
attributes in dir() order, keep the enabled task methods, and stable-sort by
the order field. -/
def plannedTasks (cls : List RegisteredTask) : List RegisteredTask :=
  sortLe orderLe ((dirOrder cls).filter (fun t => t.meta.enabled))

/-- The task names in execution order, before subset filtering. -/
def plannedNames (cls : List RegisteredTask) : List String :=
  (plannedTasks cls).map (fun t => t.meta.name)

/-- StageTwo.start (base_runner.py lines 332-377): build a fresh context and
drive every planned task, honouring the requested subset. -/
def stageTwoStart (env : WrapperEnv) (timesOut : String → Bool)
    (cls : List RegisteredTask) (requested : List String)
    (base : List (String × Value))
    (controls : List (String × List (String × String))) :
    Option (TaskContext × RunLog) :=
  runTasks env timesOut requested (plannedTasks cls)
    (TaskContext.init base controls) RunLog.init

/-- The setattr of task_registry.py line 39 on the StageTwo class: an
existing attribute with the same name is silently replaced in place; a new
name is appended. No duplicate check of any kind is performed. -/
def setattrTask (cls : List RegisteredTask) (t : RegisteredTask) :
    List RegisteredTask :=
  if cls.any (fun u => u.attrName == t.attrName) then
    cls.map (fun u => if u.attrName == t.attrName then t else u)
  else cls ++ [t]

/-- register_tasks (task_registry.py lines 7-39): every discovered task
function is attached to the class with setattr, in discovery order. -/
def register_tasks (cls : List RegisteredTask) (found : List RegisteredTask) :
    List RegisteredTask :=
  found.foldl setattrTask cls

/-- Shape of a successful task return value after the one correction the code
forces on the specification: a dict whose data key is a dict or list, whose
violation key (if present) is a bool, and whose message key (if present) is a
str or None. Stated from the amended claim wording, to be compared with the
validation the source performs. -/
def amendedShape : Value → Bool
  | .vDict kvs =>
      acontains kvs "data" &&
      (match alookup kvs "data" with
       | some (.vDict _) => true
       | some (.vList _) => true
       | _ => false) &&
      (match alookup kvs "violation" with
       | Option.none => true
       | some (.vBool _) => true
       | _ => false) &&
      (match alookup kvs "message" with
       | Option.none => true
       | some .vNone => true
       | some (.vStr _) => true
       | _ => false)
  | _ => false

/-- Shape of a successful task return value exactly as the claim words it: as
above but with the message key, if present, required to be a string. Stated
from the claim wording, to be compared with the validation the source
performs. -/
def claimC3Shape : Value → Bool
  | .vDict kvs =>
      acontains kvs "data" &&
      (match alookup kvs "data" with
       | some (.vDict _) => true
       | some (.vList _) => true
       | _ => false) &&
      (match alookup kvs "violation" with
       | Option.none => true
       | some (.vBool _) => true
       | _ => false) &&
      (match alookup kvs "message" with
       | Option.none => true
       | some (.vStr _) => true
       | _ => false)
  | _ => false

/-- The success flag the wrapper computes for a given body outcome: false for
a raised exception or a rejected return value, true otherwise
(decorators.py lines 64-124). -/
def wrapSuccess : Except String Value → Bool
  | Except.error _ => false
  | Except.ok v => (validateReturn v).isOk

/-- The violation flag stored for a given body outcome: the extracted flag on
a validated return, the prior per-task flag otherwise. -/
def wrapViolation (bres : Except String Value) (prior : Bool) : Bool :=
  match bres with
  | Except.error _ => prior
  | Except.ok v =>
      match validateReturn v with
      | Except.ok out => out.violation
      | Except.error _ => prior

/-- Whether a value is a dict containing the data key. -/
def hasDataKey : Value → Bool
  | .vDict kvs => acontains kvs "data"
  | _ => false

/-- An environment whose violation POST always succeeds. -/
def envOk : WrapperEnv := { reportPost := fun _ => Except.ok () }

/-- An environment whose violation POST always fails with an HTTP error. -/
def envFail : WrapperEnv :=
  { reportPost := fun _ => Except.error "HTTP 500" }

/-- A well-formed collector body returning one data field. -/
def okBody : TaskBody :=
  fun c => (c, Except.ok (.vDict [("data", .vDict [("x", .vInt 1)])]))

/-- A body that raises. -/
def raiseBody : TaskBody := fun c => (c, Except.error "RuntimeError: boom")

/-- A validated insight return value flagging a violation. -/
def violValue : Value := .vDict [("data", .vList []), ("violation", .vBool true)]

/-- A return value with the message key present and bound to None. -/
def c3value : Value := .vDict [("data", .vDict []), ("message", .vNone)]

/-- A finished successful task record, as stored for a completed dependency. -/
def rdOkFix : ResultRecord :=
  { success := true, output := .vDict [], errors := [], traceback := Option.none,
    logs := [], isViolation := false, status := "done", ttype := "collector",
    controls := [], startTime := Option.none, endTime := Option.none,
    duration := Option.none }

/-- A finished failed task record, as stored for a failed dependency. -/
def rdBadFix : ResultRecord := { rdOkFix with success := false }

/-- A context holding one successful and one failed dependency result. -/
def ctxC2 : TaskContext :=
  { TaskContext.init [] [] with
      results := [("okdep", .record rdOkFix), ("baddep", .record rdBadFix)] }

/-- A plain collector metadata record. -/
def metaM1 : TaskMeta :=
  mkTaskMeta "m1" "M one" Option.none true "collector" Option.none
    Option.none Option.none

/-- An insight metadata record with no dependencies. -/
def metaC4 : TaskMeta :=
  mkTaskMeta "v1" "V one" Option.none true "insight" Option.none
    (some "high") Option.none

/-- A collector metadata record depending on a missing task. -/
def metaC2 : TaskMeta :=
  mkTaskMeta "m2" "M two" Option.none true "collector" Option.none
    Option.none (some ["okdep", "missing", "later"])

/-- A registered collector task named t1. -/
def c1task : RegisteredTask :=
  { attrName := "t1_fn",
    meta := mkTaskMeta "t1" "T one" Option.none true "collector" Option.none
      Option.none Option.none,
    body := okBody }

/-- A run of the single task t1 whose deadline elapses. -/
def c1run : Option (TaskContext × RunLog) :=
  stageTwoStart envOk (fun _ => true) [c1task] [] [] []

/-- Checks that the circuit branch stored the bare boolean False for t1 and
that a later format_result for t1 crashes. -/
def c1check : Bool :=
  match c1run with
  | some (ctx, _) =>
      (match alookup ctx.results "t1" with
       | some (.pyBool false) => true
       | _ => false) && (ctx.format_result (some "t1")).isNone
  | Option.none => false

/-- A collector registered under a late-alphabet function name. -/
def c5zTask : RegisteredTask :=
  { attrName := "z_fn",
    meta := mkTaskMeta "z_check" "Z check" Option.none true "collector"
      Option.none Option.none Option.none,
    body := okBody }

/-- A collector registered under an early-alphabet function name. -/
def c5aTask : RegisteredTask :=
  { attrName := "a_fn",
    meta := mkTaskMeta "a_check" "A check" Option.none true "collector"
      Option.none Option.none Option.none,
    body := okBody }

/-- Two task functions sharing both function name and task name. -/
def c7taskA : RegisteredTask :=
  { attrName := "dup_fn",
    meta := mkTaskMeta "dup" "first" Option.none true "collector" Option.none
      Option.none Option.none,
    body := okBody }

/-- The second of the two identically named task functions. -/
def c7taskB : RegisteredTask :=
  { attrName := "dup_fn",
    meta := mkTaskMeta "dup" "second" Option.none true "collector" Option.none
      Option.none Option.none,
    body := okBody }

/-- A task function whose metadata name collides with another function. -/
def c7taskC : RegisteredTask :=
  { attrName := "f_one",
    meta := mkTaskMeta "dup" "C title" Option.none true "collector" Option.none
      Option.none Option.none,
    body := okBody }

/-- A second task function with the same metadata name as c7taskC. -/
def c7taskD : RegisteredTask :=
  { attrName := "f_two",
    meta := mkTaskMeta "dup" "D title" Option.none true "collector" Option.none
      Option.none Option.none,
    body := okBody }

/-- A registered task named boom whose body raises. -/
def c8task : RegisteredTask :=
  { attrName := "boom_fn",
    meta := mkTaskMeta "boom" "Boom" Option.none true "collector" Option.none
      Option.none Option.none,
    body := raiseBody }

/-- Checks whether the raw result of the failed task boom contains the data
key after a full run. -/
def c8check : Bool :=
  match stageTwoStart envOk (fun _ => false) [c8task] [] [] [] with
  | some (ctx, _) => hasDataKey (ctx.get_raw_result (some "boom"))
  | Option.none => true

/-- The success flag the wrapper assigns to a task body returning the value
with a None message. -/
def c3check : Bool :=
  match (runWrapper envOk metaM1 (fun c => (c, Except.ok c3value))
      (TaskContext.init [] []) RunLog.init).res with
  | Except.ok rd => rd.success
  | Except.error _ => false

theorem alookup_aset_self {α : Type} (m : List (String × α)) (k : String) (v : α) :
    alookup (aset m k v) k = some v := by
  induction m with
  | nil => simp [aset, alookup]
  | cons hd tl ih =>
      obtain ⟨k1, v1⟩ := hd
      by_cases h : k1 = k
      · subst h; simp [aset, alookup]
      · simp [aset, alookup, h, ih]

theorem alookup_aset_ne {α : Type} (m : List (String × α)) (k n : String) (v : α)
    (h : n ≠ k) : alookup (aset m k v) n = alookup m n := by
  induction m with
  | nil => simp [aset, alookup, Ne.symm h]
  | cons hd tl ih =>
      obtain ⟨k1, v1⟩ := hd
      by_cases h1 : k1 = k
      · subst h1
        simp [aset, alookup, Ne.symm h]
      · simp [aset, alookup, h1, ih]

theorem aset_aset_same {α : Type} (m : List (String × α)) (k : String) (v w : α) :
    aset (aset m k v) k w = aset m k w := by
  induction m with
  | nil => simp [aset]
  | cons hd tl ih =>
      obtain ⟨k1, v1⟩ := hd
      by_cases h : k1 = k
      · subst h; simp [aset]
      · simp [aset, h, ih]

theorem alookup_aremove_ne {α : Type} (m : List (String × α)) (k n : String)
    (h : n ≠ k) : alookup (aremove m k) n = alookup m n := by
  induction m with
  | nil => simp [aremove]
  | cons hd tl ih =>
      obtain ⟨k1, v1⟩ := hd
      by_cases h1 : k1 = k
      · subst h1
        by_cases h2 : k1 = n
        · exact absurd h2.symm h
        · simp [aremove, alookup, h2]
      · by_cases h2 : k1 = n
        · subst h2; simp [aremove, alookup, h1]
        · simp [aremove, alookup, h1, h2, ih]

/-- The validation of the source succeeds exactly on the amended shape. -/
theorem validateReturn_isOk_iff (v : Value) :
    (validateReturn v).isOk = amendedShape v := by
  cases v with
  | vDict kvs =>
      simp only [validateReturn, amendedShape]
      by_cases hc : acontains kvs "data"
      · simp only [hc, Bool.not_true, Bool.false_eq_true, if_false, Bool.true_and]
        cases hd : alookup kvs "data" with
        | none =>
            simp [acontains, hd] at hc
        | some d =>
            cases d <;>
              simp only [Except.isOk, Except.toBool] <;>
              (cases hv : (alookup kvs "violation").getD (.vBool false) <;>
                 cases hv2 : alookup kvs "violation" <;>
                 simp_all [Except.isOk, Except.toBool] <;>
                 (try cases hm : (alookup kvs "message").getD .vNone <;>
                    cases hm2 : alookup kvs "message" <;>
                    simp_all [Except.isOk, Except.toBool]))
      · simp [hc, Except.isOk, Except.toBool]
  | vNone => simp [validateReturn, amendedShape, Except.isOk, Except.toBool]
  | vBool b => simp [validateReturn, amendedShape, Except.isOk, Except.toBool]
  | vInt n => simp [validateReturn, amendedShape, Except.isOk, Except.toBool]
  | vStr s => simp [validateReturn, amendedShape, Except.isOk, Except.toBool]
  | vList l => simp [validateReturn, amendedShape, Except.isOk, Except.toBool]

theorem format_result_fresh (ctx : TaskContext) (name : String)
    (hfresh : alookup ctx.results name = Option.none) :
    ctx.format_result (some name) = some (ctx.formatFields name true "collector") := by
  simp [TaskContext.format_result, TaskContext.resolveTaskName, hfresh]

theorem format_result_record (ctx : TaskContext) (name : String) (rr : ResultRecord)
    (h : alookup ctx.results name = some (.record rr)) :
    ctx.format_result (some name) = some (ctx.formatFields name rr.success rr.ttype) := by
  simp [TaskContext.format_result, TaskContext.resolveTaskName, h]

theorem gateFail_spec (meta : TaskMeta) (msg : String) (warn : Bool)
    (ctx : TaskContext) (log : RunLog)
    (hfresh : alookup ctx.results meta.name = Option.none)
    (hcur : ctx.currentTask = some meta.name) :
    ∃ rd,
      (gateFail meta msg warn ctx log).res = Except.ok rd ∧
      rd.status = "skipped" ∧ rd.success = false ∧ rd.ttype = meta.ttype ∧
      rd.errors = ctx.get_errors (some meta.name) ++ [msg] ∧
      (gateFail meta msg warn ctx log).ctx.results
        = aset ctx.results meta.name (StoredResult.record rd) ∧
      alookup (gateFail meta msg warn ctx log).ctx.status meta.name = some "skipped" ∧
      (∀ n, n ≠ meta.name →
        alookup (gateFail meta msg warn ctx log).ctx.status n = alookup ctx.status n ∧
        alookup (gateFail meta msg warn ctx log).ctx.errors n = alookup ctx.errors n) ∧
      (gateFail meta msg warn ctx log).ctx.rawResults = ctx.rawResults ∧
      (gateFail meta msg warn ctx log).ctx.violations = ctx.violations ∧
      (gateFail meta msg warn ctx log).log.reportAttempts = log.reportAttempts := by
  simp only [gateFail, TaskContext.add_error, TaskContext.resolveTaskName, hcur,
    Option.getD_some, Option.getD_none]
  rw [format_result_fresh _ _ (by simpa using hfresh)]
  refine ⟨_, rfl, ?_, rfl, rfl, ?_, ?_, ?_, ?_, rfl, rfl, ?_⟩
  · simp [TaskContext.formatFields, TaskContext.get_status, TaskContext.resolveTaskName,
      alookup_aset_self]
  · simp [TaskContext.formatFields, TaskContext.get_errors, TaskContext.resolveTaskName,
      alookup_aset_self]
  · rfl
  · simp [alookup_aset_self]
  · intro n hn
    simp [alookup_aset_ne _ _ _ _ hn]
  · cases warn <;> rfl

theorem depGate_skip_passing (meta : TaskMeta) (log : RunLog) (pre rest : List String)
    (ctx : TaskContext)
    (hpre : ∀ x ∈ pre, ∃ rr, alookup ctx.results x = some (.record rr) ∧ rr.success = true) :
    depGate meta log (pre ++ rest) ctx = depGate meta log rest ctx := by
  induction pre with
  | nil => rfl
  | cons x xs ih =>
      obtain ⟨rr, hx, hsucc⟩ := hpre x (by simp)
      have h1 : ctx.has_result (some x) = true := by
        simp [TaskContext.has_result, acontains, TaskContext.resolveTaskName, hx]
      have h2 : ctx.get_result (some x)
          = some (ctx.formatFields x rr.success rr.ttype) :=
        format_result_record ctx x rr hx
      simp only [List.cons_append, depGate, h1, h2, if_true]
      simp only [TaskContext.formatFields, hsucc, if_true]
      exact ih (fun y hy => hpre y (by simp [hy]))

theorem depGate_first_missing (meta : TaskMeta) (log : RunLog) (pre post : List String)
    (d : String) (ctx : TaskContext)
    (hpre : ∀ x ∈ pre, ∃ rr, alookup ctx.results x = some (.record rr) ∧ rr.success = true)
    (hd : alookup ctx.results d = Option.none) :
    depGate meta log (pre ++ d :: post) ctx =
      GateResult.halt
        (gateFail meta ("Dependency " ++ q d ++ " was not executed") false ctx log) := by
  rw [depGate_skip_passing meta log pre (d :: post) ctx hpre]
  have h1 : ctx.has_result (some d) = false := by
    simp [TaskContext.has_result, acontains, TaskContext.resolveTaskName, hd]
  simp [depGate, h1]

theorem depGate_first_failed (meta : TaskMeta) (log : RunLog) (pre post : List String)
    (d : String) (ctx : TaskContext) (rr : ResultRecord)
    (hpre : ∀ x ∈ pre, ∃ rr2, alookup ctx.results x = some (.record rr2) ∧ rr2.success = true)
    (hd : alookup ctx.results d = some (.record rr)) (hs : rr.success = false) :
    depGate meta log (pre ++ d :: post) ctx =
      GateResult.halt
        (gateFail meta ("Dependency " ++ q d ++ " failed - skipping task") true ctx log) := by
  rw [depGate_skip_passing meta log pre (d :: post) ctx hpre]
  have h1 : ctx.has_result (some d) = true := by
    simp [TaskContext.has_result, acontains, TaskContext.resolveTaskName, hd]
  have h2 : ctx.get_result (some d) = some (ctx.formatFields d rr.success rr.ttype) :=
    format_result_record ctx d rr hd
  simp only [depGate, h1, h2, if_true]
  simp [TaskContext.formatFields, hs]

theorem depGate_cases (meta : TaskMeta) (log : RunLog) (deps : List String)
    (ctx : TaskContext)
    (hwf : ∀ n r, alookup ctx.results n = some r → ∃ rr, r = StoredResult.record rr) :
    depGate meta log deps ctx = GateResult.pass ctx log ∨
    ∃ msg warn, depGate meta log deps ctx
      = GateResult.halt (gateFail meta msg warn ctx log) := by
  induction deps with
  | nil => exact Or.inl rfl
  | cons dep rest ih =>
      cases hd : alookup ctx.results dep with
      | none =>
          refine Or.inr
            ⟨"Dependency " ++ q dep ++ " was not executed", false, ?_⟩
          have h1 : ctx.has_result (some dep) = false := by
            simp [TaskContext.has_result, acontains, TaskContext.resolveTaskName, hd]
          simp [depGate, h1]
      | some r =>
          obtain ⟨rr, rfl⟩ := hwf dep r hd
          have h1 : ctx.has_result (some dep) = true := by
            simp [TaskContext.has_result, acontains, TaskContext.resolveTaskName, hd]
          have h2 : ctx.get_result (some dep)
              = some (ctx.formatFields dep rr.success rr.ttype) :=
            format_result_record ctx dep rr hd
          by_cases hs : rr.success = true
          · simpa only [depGate, h1, h2, if_true, TaskContext.formatFields, hs] using ih
          · refine Or.inr
              ⟨"Dependency " ++ q dep ++ " failed - skipping task", true, ?_⟩
            simp only [depGate, h1, h2, if_true, TaskContext.formatFields]
            simp [Bool.of_not_eq_true hs]


theorem create_violation_fresh (env : WrapperEnv) (ctx : TaskContext) (log : RunLog)
    (name : String) (hfresh : alookup ctx.results name = Option.none) :
    TaskContext.create_violation env ctx log (some name)
      = ({ log with reportAttempts := log.reportAttempts ++ [name] },
         env.reportPost name) := by
  simp only [TaskContext.create_violation, TaskContext.resolveTaskName, Option.getD_some]
  rw [format_result_fresh _ _ hfresh]

theorem wrapperFinalize_spec (env : WrapperEnv) (meta : TaskMeta) (success : Bool)
    (ctx : TaskContext) (log : RunLog)
    (hfresh : alookup ctx.results meta.name = Option.none)
    (hcur : ctx.currentTask = some meta.name) :
    ∃ rd,
      (wrapperFinalize env meta success ctx log).res = Except.ok rd ∧
      rd.status = "done" ∧ rd.success = success ∧ rd.ttype = meta.ttype ∧
      rd.isViolation = ctx.get_violation (some meta.name) ∧
      rd.output = ctx.get_raw_result (some meta.name) ∧
      rd.errors = ctx.get_errors (some meta.name) ++
        (if meta.ttype == "insight" && success && ctx.get_violation (some meta.name) then
           (match env.reportPost meta.name with
            | Except.ok _ => []
            | Except.error e => ["Failed to create violation: " ++ e])
         else []) ∧
      (wrapperFinalize env meta success ctx log).ctx.results
        = aset ctx.results meta.name (StoredResult.record rd) ∧
      alookup (wrapperFinalize env meta success ctx log).ctx.status meta.name
        = some "done" ∧
      (∀ n, n ≠ meta.name →
        alookup (wrapperFinalize env meta success ctx log).ctx.status n
          = alookup ctx.status n ∧
        alookup (wrapperFinalize env meta success ctx log).ctx.errors n
          = alookup ctx.errors n) ∧
      (wrapperFinalize env meta success ctx log).ctx.rawResults = ctx.rawResults ∧
      (wrapperFinalize env meta success ctx log).ctx.violations = ctx.violations ∧
      (wrapperFinalize env meta success ctx log).log.reportAttempts
        = log.reportAttempts ++
          (if meta.ttype == "insight" && success && ctx.get_violation (some meta.name)
           then [meta.name] else []) ∧
      (wrapperFinalize env meta success ctx log).log.warnings = log.warnings := by
  simp only [wrapperFinalize]
  by_cases hcond :
      (meta.ttype == "insight" && success
        && ctx.get_violation (some meta.name)) = true
  · have hcond1 :
        (meta.ttype == "insight" && success
          && TaskContext.get_violation
              { ctx with status := aset ctx.status meta.name "done",
                         endTimes := aset ctx.endTimes meta.name ctx.clock,
                         clock := ctx.clock + 1 } (some meta.name)) = true := hcond
    have hfresh1 :
        alookup (TaskContext.results
          { ctx with status := aset ctx.status meta.name "done",
                     endTimes := aset ctx.endTimes meta.name ctx.clock,
                     clock := ctx.clock + 1 }) meta.name = Option.none := hfresh
    simp only [hcond1, if_true]
    rw [create_violation_fresh env _ log meta.name hfresh1]
    cases hpost : env.reportPost meta.name with
    | ok u =>
        simp only []
        rw [format_result_fresh _ _ hfresh1]
        refine ⟨_, rfl, ?_, rfl, rfl, ?_, ?_, ?_, rfl, ?_, ?_, rfl, rfl, ?_⟩
        · simp [TaskContext.formatFields, TaskContext.get_status,
            TaskContext.resolveTaskName, alookup_aset_self]
        · simp [TaskContext.formatFields, TaskContext.get_violation,
            TaskContext.resolveTaskName]
        · simp [TaskContext.formatFields, TaskContext.get_raw_result,
            TaskContext.resolveTaskName]
        · simp [TaskContext.formatFields, TaskContext.get_errors,
            TaskContext.resolveTaskName, hcond, hpost]
        · simp [alookup_aset_self]
        · intro n hn
          simp [alookup_aset_ne _ _ _ _ hn]
        · exact ⟨by simp [hcond], rfl⟩
    | error e =>
        simp only [TaskContext.add_error, TaskContext.resolveTaskName, hcur,
          Option.getD_none, Option.getD_some]
        rw [format_result_fresh _ _ (show alookup (TaskContext.results
          { ctx with status := aset ctx.status meta.name "done",
                     endTimes := aset ctx.endTimes meta.name ctx.clock,
                     clock := ctx.clock + 1,
                     currentTask := some meta.name,
                     errors := aset ctx.errors meta.name
                       ((alookup ctx.errors meta.name).getD []
                         ++ ["Failed to create violation: " ++ e]) }) meta.name
          = Option.none from hfresh)]
        refine ⟨_, rfl, ?_, rfl, rfl, ?_, ?_, ?_, rfl, ?_, ?_, rfl, rfl, ?_⟩
        · simp [TaskContext.formatFields, TaskContext.get_status,
            TaskContext.resolveTaskName, alookup_aset_self]
        · simp [TaskContext.formatFields, TaskContext.get_violation,
            TaskContext.resolveTaskName]
        · simp [TaskContext.formatFields, TaskContext.get_raw_result,
            TaskContext.resolveTaskName]
        · simp [TaskContext.formatFields, TaskContext.get_errors,
            TaskContext.resolveTaskName, hcond, hpost, alookup_aset_self]
        · simp [alookup_aset_self]
        · intro n hn
          simp [alookup_aset_ne _ _ _ _ hn]
        · exact ⟨by simp [hcond], rfl⟩
  · have hcond1 :
        (meta.ttype == "insight" && success
          && TaskContext.get_violation
              { ctx with status := aset ctx.status meta.name "done",
                         endTimes := aset ctx.endTimes meta.name ctx.clock,
                         clock := ctx.clock + 1 } (some meta.name)) = false := by
      simpa using hcond
    have hfresh1 :
        alookup (TaskContext.results
          { ctx with status := aset ctx.status meta.name "done",
                     endTimes := aset ctx.endTimes meta.name ctx.clock,
                     clock := ctx.clock + 1 }) meta.name = Option.none := hfresh
    simp only [hcond1, Bool.false_eq_true, if_false]
    rw [format_result_fresh _ _ hfresh1]
    refine ⟨_, rfl, ?_, rfl, rfl, ?_, ?_, ?_, rfl, ?_, ?_, rfl, rfl, ?_⟩
    · simp [TaskContext.formatFields, TaskContext.get_status,
        TaskContext.resolveTaskName, alookup_aset_self]
    · simp [TaskContext.formatFields, TaskContext.get_violation,
        TaskContext.resolveTaskName]
    · simp [TaskContext.formatFields, TaskContext.get_raw_result,
        TaskContext.resolveTaskName]
    · simp [TaskContext.formatFields, TaskContext.get_errors,
        TaskContext.resolveTaskName, hcond]
    · simp [alookup_aset_self]
    · intro n hn
      simp [alookup_aset_ne _ _ _ _ hn]
    · exact ⟨by simp [hcond], rfl⟩

theorem runWrapper_body_raises (env : WrapperEnv) (meta : TaskMeta)
    (ctx : TaskContext) (log : RunLog) (e : String)
    (hdeps : meta.dependsOn = [])
    (hfresh : alookup ctx.results meta.name = Option.none) :
    ∃ rd,
      (runWrapper env meta (fun c => (c, Except.error e)) ctx log).res
        = Except.ok rd ∧
      rd.success = false ∧ rd.status = "done" ∧ rd.ttype = meta.ttype ∧
      rd.errors = ctx.get_errors (some meta.name) ++ [e] ∧
      rd.isViolation = ctx.get_violation (some meta.name) ∧
      (runWrapper env meta (fun c => (c, Except.error e)) ctx log).log.reportAttempts
        = log.reportAttempts ∧
      (runWrapper env meta (fun c => (c, Except.error e)) ctx log).log.warnings
        = log.warnings ∧
      (runWrapper env meta (fun c => (c, Except.error e)) ctx log).ctx.results
        = aset ctx.results meta.name (StoredResult.record rd) := by
  have hf : alookup (applyFailure (wrapperEntry meta ctx) e).results meta.name
      = Option.none := by
    simpa [applyFailure, wrapperEntry, TaskContext.add_error,
      TaskContext.set_traceback, TaskContext.resolveTaskName] using hfresh
  have hc : (applyFailure (wrapperEntry meta ctx) e).currentTask = some meta.name := by
    simp [applyFailure, wrapperEntry, TaskContext.add_error,
      TaskContext.set_traceback, TaskContext.resolveTaskName]
  obtain ⟨rd, hres, hst, hsucc, hty, hviol, hout, herr, hres2, hstat, hloc,
      hraw, hviol2, hatt, hwarn⟩ :=
    wrapperFinalize_spec env meta false (applyFailure (wrapperEntry meta ctx) e) log hf hc
  have hrun : runWrapper env meta (fun c => (c, Except.error e)) ctx log
      = wrapperFinalize env meta false (applyFailure (wrapperEntry meta ctx) e) log := by
    simp only [runWrapper, hdeps, depGate, runBodyValidate]
  have hge : (applyFailure (wrapperEntry meta ctx) e).get_errors (some meta.name)
      = ctx.get_errors (some meta.name) ++ [e] := by
    simp [applyFailure, wrapperEntry, TaskContext.add_error,
      TaskContext.set_traceback, TaskContext.get_errors,
      TaskContext.resolveTaskName, alookup_aset_self]
  have hresults : (applyFailure (wrapperEntry meta ctx) e).results = ctx.results := by
    simp [applyFailure, wrapperEntry, TaskContext.add_error,
      TaskContext.set_traceback]
  refine ⟨rd, ?_, ?_, hst, hty, ?_, ?_, ?_, ?_, ?_⟩
  · rw [hrun]; exact hres
  · rw [hsucc]
  · rw [herr, hge]
    simp
  · rw [hviol]
    simp [applyFailure, wrapperEntry, TaskContext.add_error,
      TaskContext.set_traceback, TaskContext.get_violation,
      TaskContext.resolveTaskName]
  · rw [hrun, hatt]
    simp
  · rw [hrun, hwarn]
  · rw [hrun, hres2, hresults]

theorem runWrapper_invalid_return (env : WrapperEnv) (meta : TaskMeta)
    (ctx : TaskContext) (log : RunLog) (v : Value) (m : String)
    (hdeps : meta.dependsOn = [])
    (hfresh : alookup ctx.results meta.name = Option.none)
    (hval : validateReturn v = Except.error m) :
    ∃ rd,
      (runWrapper env meta (fun c => (c, Except.ok v)) ctx log).res
        = Except.ok rd ∧
      rd.success = false ∧ rd.status = "done" ∧ rd.ttype = meta.ttype ∧
      rd.errors = ctx.get_errors (some meta.name) ++ [m] ∧
      rd.isViolation = ctx.get_violation (some meta.name) ∧
      (runWrapper env meta (fun c => (c, Except.ok v)) ctx log).log.reportAttempts
        = log.reportAttempts ∧
      (runWrapper env meta (fun c => (c, Except.ok v)) ctx log).log.warnings
        = log.warnings ∧
      (runWrapper env meta (fun c => (c, Except.ok v)) ctx log).ctx.results
        = aset ctx.results meta.name (StoredResult.record rd) := by
  have hf : alookup (applyFailure (wrapperEntry meta ctx) m).results meta.name
      = Option.none := by
    simpa [applyFailure, wrapperEntry, TaskContext.add_error,
      TaskContext.set_traceback, TaskContext.resolveTaskName] using hfresh
  have hc : (applyFailure (wrapperEntry meta ctx) m).currentTask = some meta.name := by
    simp [applyFailure, wrapperEntry, TaskContext.add_error,
      TaskContext.set_traceback, TaskContext.resolveTaskName]
  obtain ⟨rd, hres, hst, hsucc, hty, hviol, hout, herr, hres2, hstat, hloc,
      hraw, hviol2, hatt, hwarn⟩ :=
    wrapperFinalize_spec env meta false (applyFailure (wrapperEntry meta ctx) m) log hf hc
  have hrun : runWrapper env meta (fun c => (c, Except.ok v)) ctx log
      = wrapperFinalize env meta false (applyFailure (wrapperEntry meta ctx) m) log := by
    simp only [runWrapper, hdeps, depGate, runBodyValidate, hval]
  have hge : (applyFailure (wrapperEntry meta ctx) m).get_errors (some meta.name)
      = ctx.get_errors (some meta.name) ++ [m] := by
    simp [applyFailure, wrapperEntry, TaskContext.add_error,
      TaskContext.set_traceback, TaskContext.get_errors,
      TaskContext.resolveTaskName, alookup_aset_self]
  have hresults : (applyFailure (wrapperEntry meta ctx) m).results = ctx.results := by
    simp [applyFailure, wrapperEntry, TaskContext.add_error,
      TaskContext.set_traceback]
  refine ⟨rd, ?_, ?_, hst, hty, ?_, ?_, ?_, ?_, ?_⟩
  · rw [hrun]; exact hres
  · rw [hsucc]
  · rw [herr, hge]
    simp
  · rw [hviol]
    simp [applyFailure, wrapperEntry, TaskContext.add_error,
      TaskContext.set_traceback, TaskContext.get_violation,
      TaskContext.resolveTaskName]
  · rw [hrun, hatt]
    simp
  · rw [hrun, hwarn]
  · rw [hrun, hres2, hresults]

theorem runWrapper_valid_return (env : WrapperEnv) (meta : TaskMeta)
    (ctx : TaskContext) (log : RunLog) (v : Value) (out : Validated)
    (hdeps : meta.dependsOn = [])
    (hfresh : alookup ctx.results meta.name = Option.none)
    (hval : validateReturn v = Except.ok out) :
    ∃ rd,
      (runWrapper env meta (fun c => (c, Except.ok v)) ctx log).res
        = Except.ok rd ∧
      rd.success = true ∧ rd.status = "done" ∧ rd.ttype = meta.ttype ∧
      rd.isViolation = out.violation ∧
      rd.output = Value.vDict out.stored ∧
      rd.errors = ctx.get_errors (some meta.name) ++
        (if meta.ttype == "insight" && out.violation then
           (match env.reportPost meta.name with
            | Except.ok _ => []
            | Except.error e2 => ["Failed to create violation: " ++ e2])
         else []) ∧
      (runWrapper env meta (fun c => (c, Except.ok v)) ctx log).log.reportAttempts
        = log.reportAttempts ++
          (if meta.ttype == "insight" && out.violation then [meta.name] else []) ∧
      (runWrapper env meta (fun c => (c, Except.ok v)) ctx log).log.warnings
        = log.warnings ++
          (if out.unexpectedKeys.isEmpty then []
           else [unexpectedWarn meta.name out.unexpectedKeys]) ∧
      (runWrapper env meta (fun c => (c, Except.ok v)) ctx log).ctx.results
        = aset ctx.results meta.name (StoredResult.record rd) ∧
      alookup (runWrapper env meta (fun c => (c, Except.ok v)) ctx log).ctx.rawResults
          meta.name
        = some (Value.vDict out.stored) := by
  have hf : alookup ((wrapperEntry meta ctx).set_result (.vDict out.stored)
      Option.none (some out.violation)).results meta.name = Option.none := by
    simpa [wrapperEntry, TaskContext.set_result, TaskContext.resolveTaskName]
      using hfresh
  have hc : ((wrapperEntry meta ctx).set_result (.vDict out.stored)
      Option.none (some out.violation)).currentTask = some meta.name := by
    simp [wrapperEntry, TaskContext.set_result, TaskContext.resolveTaskName]
  obtain ⟨rd, hres, hst, hsucc, hty, hviol, hout, herr, hres2, hstat, hloc,
      hraw, hviol2, hatt, hwarn⟩ :=
    wrapperFinalize_spec env meta true
      ((wrapperEntry meta ctx).set_result (.vDict out.stored)
        Option.none (some out.violation))
      (if out.unexpectedKeys.isEmpty then log
       else { log with
                warnings := log.warnings ++ [unexpectedWarn meta.name out.unexpectedKeys] })
      hf hc
  have hrun : runWrapper env meta (fun c => (c, Except.ok v)) ctx log
      = wrapperFinalize env meta true
          ((wrapperEntry meta ctx).set_result (.vDict out.stored)
            Option.none (some out.violation))
          (if out.unexpectedKeys.isEmpty then log
           else { log with
                    warnings := log.warnings
                      ++ [unexpectedWarn meta.name out.unexpectedKeys] }) := by
    simp only [runWrapper, hdeps, depGate, runBodyValidate, hval]
  have hgv : ((wrapperEntry meta ctx).set_result (.vDict out.stored)
      Option.none (some out.violation)).get_violation (some meta.name)
      = out.violation := by
    simp [wrapperEntry, TaskContext.set_result, TaskContext.get_violation,
      TaskContext.resolveTaskName, alookup_aset_self]
  have hgr : ((wrapperEntry meta ctx).set_result (.vDict out.stored)
      Option.none (some out.violation)).get_raw_result (some meta.name)
      = Value.vDict out.stored := by
    simp [wrapperEntry, TaskContext.set_result, TaskContext.get_raw_result,
      TaskContext.resolveTaskName, alookup_aset_self]
  have hge : ((wrapperEntry meta ctx).set_result (.vDict out.stored)
      Option.none (some out.violation)).get_errors (some meta.name)
      = ctx.get_errors (some meta.name) := by
    simp [wrapperEntry, TaskContext.set_result, TaskContext.get_errors,
      TaskContext.resolveTaskName]
  have hresults : ((wrapperEntry meta ctx).set_result (.vDict out.stored)
      Option.none (some out.violation)).results = ctx.results := by
    simp [wrapperEntry, TaskContext.set_result]
  have hrawset : alookup ((wrapperEntry meta ctx).set_result (.vDict out.stored)
      Option.none (some out.violation)).rawResults meta.name
      = some (Value.vDict out.stored) := by
    simp [wrapperEntry, TaskContext.set_result, TaskContext.resolveTaskName,
      alookup_aset_self]
  refine ⟨rd, ?_, ?_, hst, hty, ?_, ?_, ?_, ?_, ?_, ?_, ?_⟩
  · rw [hrun]; exact hres
  · rw [hsucc]
  · rw [hviol, hgv]
  · rw [hout, hgr]
  · rw [herr, hge, hgv]
    simp
  · rw [hrun, hatt, hgv]
    cases hie : out.unexpectedKeys.isEmpty <;> simp [hie]
  · rw [hrun, hwarn]
    cases hie : out.unexpectedKeys.isEmpty <;> simp [hie]
  · rw [hrun, hres2, hresults]
  · rw [hrun]
    rw [show (wrapperFinalize env meta true
      ((wrapperEntry meta ctx).set_result (.vDict out.stored)
        Option.none (some out.violation))
      (if out.unexpectedKeys.isEmpty then log
       else { log with
                warnings := log.warnings
                  ++ [unexpectedWarn meta.name out.unexpectedKeys] })).ctx.rawResults
      = ((wrapperEntry meta ctx).set_result (.vDict out.stored)
          Option.none (some out.violation)).rawResults from hraw]
    exact hrawset

theorem wf_aset_record (m : List (String × StoredResult)) (k : String)
    (rd : ResultRecord)
    (hwf : ∀ n r, alookup m n = some r → ∃ rr, r = StoredResult.record rr) :
    ∀ n r, alookup (aset m k (StoredResult.record rd)) n = some r →
      ∃ rr, r = StoredResult.record rr := by
  intro n r hr
  by_cases hn : n = k
  · subst hn
    rw [alookup_aset_self] at hr
    exact ⟨rd, by injection hr with h; exact h.symm⟩
  · rw [alookup_aset_ne _ _ _ _ hn] at hr
    exact hwf n r hr

theorem runWrapper_inert_spec (env : WrapperEnv) (meta : TaskMeta)
    (ctx : TaskContext) (log : RunLog) (bres : Except String Value)
    (hwf : ∀ n r, alookup ctx.results n = some r → ∃ rr, r = StoredResult.record rr)
    (hfresh : alookup ctx.results meta.name = Option.none) :
    ∃ rd,
      (runWrapper env meta (fun c => (c, bres)) ctx log).res = Except.ok rd ∧
      (rd.status = "done" ∨ rd.status = "skipped") ∧
      (runWrapper env meta (fun c => (c, bres)) ctx log).ctx.results
        = aset ctx.results meta.name (StoredResult.record rd) ∧
      alookup (runWrapper env meta (fun c => (c, bres)) ctx log).ctx.status meta.name
        = some rd.status ∧
      (∀ n, n ≠ meta.name →
        alookup (runWrapper env meta (fun c => (c, bres)) ctx log).ctx.status n
          = alookup ctx.status n ∧
        alookup (runWrapper env meta (fun c => (c, bres)) ctx log).ctx.errors n
          = alookup ctx.errors n ∧
        alookup (runWrapper env meta (fun c => (c, bres)) ctx log).ctx.rawResults n
          = alookup ctx.rawResults n ∧
        alookup (runWrapper env meta (fun c => (c, bres)) ctx log).ctx.violations n
          = alookup ctx.violations n) := by
  have hwf0 : ∀ n r, alookup (wrapperEntry meta ctx).results n = some r →
      ∃ rr, r = StoredResult.record rr := hwf
  have hstatus0 : ∀ n, n ≠ meta.name →
      alookup (wrapperEntry meta ctx).status n = alookup ctx.status n := by
    intro n hn
    simp [wrapperEntry, alookup_aset_ne _ _ _ _ hn]
  rcases depGate_cases meta log meta.dependsOn (wrapperEntry meta ctx) hwf0 with
    hgate | ⟨msg, warn, hgate⟩
  · -- the gate passes and the body runs
    cases bres with
    | error e =>
        have hf : alookup (applyFailure (wrapperEntry meta ctx) e).results meta.name
            = Option.none := by
          simpa [applyFailure, wrapperEntry, TaskContext.add_error,
            TaskContext.set_traceback, TaskContext.resolveTaskName] using hfresh
        have hc : (applyFailure (wrapperEntry meta ctx) e).currentTask
            = some meta.name := by
          simp [applyFailure, wrapperEntry, TaskContext.add_error,
            TaskContext.set_traceback, TaskContext.resolveTaskName]
        obtain ⟨rd, hres, hst, hsucc, hty, hviol, hout, herr, hres2, hstat, hloc,
            hraw, hviol2, hatt, hwarn⟩ :=
          wrapperFinalize_spec env meta false (applyFailure (wrapperEntry meta ctx) e)
            log hf hc
        have hrun : runWrapper env meta (fun c => (c, Except.error e)) ctx log
            = wrapperFinalize env meta false
                (applyFailure (wrapperEntry meta ctx) e) log := by
          simp only [runWrapper]
          rw [hgate]
          simp only [runBodyValidate]
        refine ⟨rd, by rw [hrun]; exact hres, Or.inl hst, ?_, ?_, ?_⟩
        · rw [hrun, hres2]
          congr 1
        · rw [hrun, hstat, hst]
        · intro n hn
          obtain ⟨h1, h2⟩ := hloc n hn
          refine ⟨?_, ?_, ?_, ?_⟩
          · rw [hrun, h1]
            simp [applyFailure, wrapperEntry, TaskContext.add_error,
              TaskContext.set_traceback, TaskContext.resolveTaskName,
              alookup_aset_ne _ _ _ _ hn]
          · rw [hrun, h2]
            simp [applyFailure, wrapperEntry, TaskContext.add_error,
              TaskContext.set_traceback, TaskContext.resolveTaskName,
              alookup_aset_ne _ _ _ _ hn]
          · rw [hrun, hraw]
            simp [applyFailure, wrapperEntry, TaskContext.add_error,
              TaskContext.set_traceback]
          · rw [hrun, hviol2]
            simp [applyFailure, wrapperEntry, TaskContext.add_error,
              TaskContext.set_traceback]
    | ok v =>
        cases hval : validateReturn v with
        | error m =>
            have hf : alookup (applyFailure (wrapperEntry meta ctx) m).results meta.name
                = Option.none := by
              simpa [applyFailure, wrapperEntry, TaskContext.add_error,
                TaskContext.set_traceback, TaskContext.resolveTaskName] using hfresh
            have hc : (applyFailure (wrapperEntry meta ctx) m).currentTask
                = some meta.name := by
              simp [applyFailure, wrapperEntry, TaskContext.add_error,
                TaskContext.set_traceback, TaskContext.resolveTaskName]
            obtain ⟨rd, hres, hst, hsucc, hty, hviol, hout, herr, hres2, hstat, hloc,
                hraw, hviol2, hatt, hwarn⟩ :=
              wrapperFinalize_spec env meta false
                (applyFailure (wrapperEntry meta ctx) m) log hf hc
            have hrun : runWrapper env meta (fun c => (c, Except.ok v)) ctx log
                = wrapperFinalize env meta false
                    (applyFailure (wrapperEntry meta ctx) m) log := by
              simp only [runWrapper]
              rw [hgate]
              simp only [runBodyValidate, hval]
            refine ⟨rd, by rw [hrun]; exact hres, Or.inl hst, ?_, ?_, ?_⟩
            · rw [hrun, hres2]
              congr 1
            · rw [hrun, hstat, hst]
            · intro n hn
              obtain ⟨h1, h2⟩ := hloc n hn
              refine ⟨?_, ?_, ?_, ?_⟩
              · rw [hrun, h1]
                simp [applyFailure, wrapperEntry, TaskContext.add_error,
                  TaskContext.set_traceback, TaskContext.resolveTaskName,
                  alookup_aset_ne _ _ _ _ hn]
              · rw [hrun, h2]
                simp [applyFailure, wrapperEntry, TaskContext.add_error,
                  TaskContext.set_traceback, TaskContext.resolveTaskName,
                  alookup_aset_ne _ _ _ _ hn]
              · rw [hrun, hraw]
                simp [applyFailure, wrapperEntry, TaskContext.add_error,
                  TaskContext.set_traceback]
              · rw [hrun, hviol2]
                simp [applyFailure, wrapperEntry, TaskContext.add_error,
                  TaskContext.set_traceback]
        | ok out =>
            have hf : alookup ((wrapperEntry meta ctx).set_result (.vDict out.stored)
                Option.none (some out.violation)).results meta.name = Option.none := by
              simpa [wrapperEntry, TaskContext.set_result,
                TaskContext.resolveTaskName] using hfresh
            have hc : ((wrapperEntry meta ctx).set_result (.vDict out.stored)
                Option.none (some out.violation)).currentTask = some meta.name := by
              simp [wrapperEntry, TaskContext.set_result, TaskContext.resolveTaskName]
            obtain ⟨rd, hres, hst, hsucc, hty, hviol, hout, herr, hres2, hstat, hloc,
                hraw, hviol2, hatt, hwarn⟩ :=
              wrapperFinalize_spec env meta true
                ((wrapperEntry meta ctx).set_result (.vDict out.stored)
                  Option.none (some out.violation))
                (if out.unexpectedKeys.isEmpty then log
                 else { log with
                          warnings := log.warnings
                            ++ [unexpectedWarn meta.name out.unexpectedKeys] })
                hf hc
            have hrun : runWrapper env meta (fun c => (c, Except.ok v)) ctx log
                = wrapperFinalize env meta true
                    ((wrapperEntry meta ctx).set_result (.vDict out.stored)
                      Option.none (some out.violation))
                    (if out.unexpectedKeys.isEmpty then log
                     else { log with
                              warnings := log.warnings
                                ++ [unexpectedWarn meta.name out.unexpectedKeys] }) := by
              simp only [runWrapper]
              rw [hgate]
              simp only [runBodyValidate, hval]
            refine ⟨rd, by rw [hrun]; exact hres, Or.inl hst, ?_, ?_, ?_⟩
            · rw [hrun, hres2]
              congr 1
            · rw [hrun, hstat, hst]
            · intro n hn
              obtain ⟨h1, h2⟩ := hloc n hn
              refine ⟨?_, ?_, ?_, ?_⟩
              · rw [hrun, h1]
                simp [wrapperEntry, TaskContext.set_result,
                  TaskContext.resolveTaskName, alookup_aset_ne _ _ _ _ hn]
              · rw [hrun, h2]
                simp [wrapperEntry, TaskContext.set_result,
                  TaskContext.resolveTaskName]
              · rw [hrun, hraw]
                simp [wrapperEntry, TaskContext.set_result,
                  TaskContext.resolveTaskName, alookup_aset_ne _ _ _ _ hn]
              · rw [hrun, hviol2]
                simp [wrapperEntry, TaskContext.set_result,
                  TaskContext.resolveTaskName, alookup_aset_ne _ _ _ _ hn]
  · -- the gate halts with a skipped result
    have hf0 : alookup (wrapperEntry meta ctx).results meta.name = Option.none :=
      hfresh
    have hc0 : (wrapperEntry meta ctx).currentTask = some meta.name := by
      simp [wrapperEntry]
    obtain ⟨rd, hres, hst, hsucc, hty, herr, hres2, hstat, hloc, hraw, hviol2, hatt⟩ :=
      gateFail_spec meta msg warn (wrapperEntry meta ctx) log hf0 hc0
    have hrun : runWrapper env meta (fun c => (c, bres)) ctx log
        = gateFail meta msg warn (wrapperEntry meta ctx) log := by
      simp only [runWrapper]
      rw [hgate]
    refine ⟨rd, by rw [hrun]; exact hres, Or.inr hst, ?_, ?_, ?_⟩
    · rw [hrun, hres2]
      congr 1
    · rw [hrun, hstat, hst]
    · intro n hn
      obtain ⟨h1, h2⟩ := hloc n hn
      refine ⟨?_, ?_, ?_, ?_⟩
      · rw [hrun, h1]
        exact hstatus0 n hn
      · rw [hrun, h2]
        simp [wrapperEntry]
      · rw [hrun, hraw]
        simp [wrapperEntry]
      · rw [hrun, hviol2]
        simp [wrapperEntry]

/-- A task body that returns an outcome without reading or mutating the run
context, the shape of the task-function contract consumed by the wrapper. -/
def InertBody (b : TaskBody) : Prop := ∃ r, ∀ c, b c = (c, r)

/-- One admissible move of the per-task status: stay, or advance along
queued to in_progress to done or skipped. -/
def statusStep (a b : String) : Prop :=
  a = b ∨
  (a = "queued" ∧ (b = "in_progress" ∨ b = "done" ∨ b = "skipped")) ∨
  (a = "in_progress" ∧ (b = "done" ∨ b = "skipped"))

theorem statusStep_trans (a b c : String) (h1 : statusStep a b)
    (h2 : statusStep b c) : statusStep a c := by
  rcases h1 with rfl | ⟨rfl, hb⟩ | ⟨rfl, hb⟩
  · exact h2
  · rcases hb with rfl | rfl | rfl
    · rcases h2 with rfl | ⟨h, _⟩ | ⟨_, hc⟩
      · exact Or.inr (Or.inl ⟨rfl, Or.inl rfl⟩)
      · exact absurd h (by simp)
      · exact Or.inr (Or.inl ⟨rfl, Or.inr hc⟩)
    · rcases h2 with rfl | ⟨h, _⟩ | ⟨h, _⟩
      · exact Or.inr (Or.inl ⟨rfl, Or.inr (Or.inl rfl)⟩)
      · exact absurd h (by simp)
      · exact absurd h (by simp)
    · rcases h2 with rfl | ⟨h, _⟩ | ⟨h, _⟩
      · exact Or.inr (Or.inl ⟨rfl, Or.inr (Or.inr rfl)⟩)
      · exact absurd h (by simp)
      · exact absurd h (by simp)
  · rcases hb with rfl | rfl
    · rcases h2 with rfl | ⟨h, _⟩ | ⟨h, _⟩
      · exact Or.inr (Or.inr ⟨rfl, Or.inl rfl⟩)
      · exact absurd h (by simp)
      · exact absurd h (by simp)
    · rcases h2 with rfl | ⟨h, _⟩ | ⟨h, _⟩
      · exact Or.inr (Or.inr ⟨rfl, Or.inr rfl⟩)
      · exact absurd h (by simp)
      · exact absurd h (by simp)

theorem runTasks_spec (env : WrapperEnv) (requested : List String)
    (tasks : List RegisteredTask) (ctx : TaskContext) (log : RunLog)
    (hdistinct : List.Pairwise (fun a b => a.meta.name ≠ b.meta.name) tasks)
    (hinert : ∀ t ∈ tasks, InertBody t.body)
    (hwf : ∀ n r, alookup ctx.results n = some r → ∃ rr, r = StoredResult.record rr)
    (hfreshR : ∀ t ∈ tasks, alookup ctx.results t.meta.name = Option.none)
    (hfreshS : ∀ t ∈ tasks, alookup ctx.status t.meta.name = Option.none) :
    ∃ ctx2 log2,
      runTasks env (fun _ => false) requested tasks ctx log = some (ctx2, log2) ∧
      (∀ n r, alookup ctx2.results n = some r → ∃ rr, r = StoredResult.record rr) ∧
      (∀ n,
        (∀ t ∈ tasks, t.meta.name = n →
          (!requested.isEmpty && !requested.contains n) = true) →
        alookup ctx2.results n = alookup ctx.results n ∧
        alookup ctx2.status n = alookup ctx.status n ∧
        alookup ctx2.errors n = alookup ctx.errors n ∧
        alookup ctx2.rawResults n = alookup ctx.rawResults n ∧
        alookup ctx2.violations n = alookup ctx.violations n) ∧
      (∀ n, statusStep (ctx.get_status (some n)) (ctx2.get_status (some n))) ∧
      (∀ n, (ctx.get_status (some n) = "done" ∨ ctx.get_status (some n) = "skipped") →
        ctx2.get_status (some n) = ctx.get_status (some n)) ∧
      (∀ n rr, alookup ctx.results n = some (StoredResult.record rr) →
        ∃ rr2, alookup ctx2.results n = some (StoredResult.record rr2) ∧
          rr2.success = rr.success) := by
  induction tasks generalizing ctx log with
  | nil =>
      refine ⟨ctx, log, rfl, hwf, ?_, ?_, ?_, ?_⟩
      · intro n _
        exact ⟨rfl, rfl, rfl, rfl, rfl⟩
      · intro n
        exact Or.inl rfl
      · intro n _
        rfl
      · intro n rr h
        exact ⟨rr, h, rfl⟩
  | cons t rest ih =>
      have hdistinct2 := (List.pairwise_cons.mp hdistinct).2
      have hdhead := (List.pairwise_cons.mp hdistinct).1
      by_cases hskip : (!requested.isEmpty && !requested.contains t.meta.name) = true
      · -- the task is filtered out of the run
        have hrun : runTasks env (fun _ => false) requested (t :: rest) ctx log
            = runTasks env (fun _ => false) requested rest ctx log := by
          simp only [runTasks, hskip, if_true]
        obtain ⟨ctx2, log2, h0, h1, h2, h3, h4, h5⟩ :=
          ih ctx log hdistinct2 (fun u hu => hinert u (List.mem_cons_of_mem t hu)) hwf
            (fun u hu => hfreshR u (List.mem_cons_of_mem t hu))
            (fun u hu => hfreshS u (List.mem_cons_of_mem t hu))
        refine ⟨ctx2, log2, by rw [hrun]; exact h0, h1, ?_, h3, h4, h5⟩
        intro n hn
        exact h2 n (fun u hu hname => hn u (List.mem_cons_of_mem t hu) hname)
      · -- the task executes
        obtain ⟨r0, hb⟩ := hinert t (List.mem_cons_self t rest)
        have hbody : t.body = fun c => (c, r0) := funext hb
        obtain ⟨rd, hres, hst, hresults, hstatN, hloc⟩ :=
          runWrapper_inert_spec env t.meta ctx log r0 hwf
            (hfreshR t (List.mem_cons_self t rest))
        have hexec : execTask env (fun _ => false) t ctx log
            = some ({ (runWrapper env t.meta (fun c => (c, r0)) ctx log).ctx with
                        results := aset ctx.results t.meta.name (StoredResult.record rd) },
                    (runWrapper env t.meta (fun c => (c, r0)) ctx log).log) := by
          simp only [execTask, hbody]
          rw [hres]
          simp only [Bool.false_eq_true, if_false]
          rw [hresults, aset_aset_same]
        have hres1 :
            TaskContext.results
              { (runWrapper env t.meta (fun c => (c, r0)) ctx log).ctx with
                  results := aset ctx.results t.meta.name (StoredResult.record rd) }
            = aset ctx.results t.meta.name (StoredResult.record rd) := rfl
        have hwf1 : ∀ n r, alookup
            (TaskContext.results
              { (runWrapper env t.meta (fun c => (c, r0)) ctx log).ctx with
                  results := aset ctx.results t.meta.name (StoredResult.record rd) }) n
            = some r → ∃ rr, r = StoredResult.record rr := by
          rw [hres1]
          exact wf_aset_record _ _ _ hwf
        have hstat1N : alookup
            (TaskContext.status
              { (runWrapper env t.meta (fun c => (c, r0)) ctx log).ctx with
                  results := aset ctx.results t.meta.name (StoredResult.record rd) })
            t.meta.name = some rd.status := hstatN
        have hloc1 : ∀ n, n ≠ t.meta.name →
            alookup (TaskContext.status
              { (runWrapper env t.meta (fun c => (c, r0)) ctx log).ctx with
                  results := aset ctx.results t.meta.name (StoredResult.record rd) }) n
              = alookup ctx.status n ∧
            alookup (TaskContext.errors
              { (runWrapper env t.meta (fun c => (c, r0)) ctx log).ctx with
                  results := aset ctx.results t.meta.name (StoredResult.record rd) }) n
              = alookup ctx.errors n ∧
            alookup (TaskContext.rawResults
              { (runWrapper env t.meta (fun c => (c, r0)) ctx log).ctx with
                  results := aset ctx.results t.meta.name (StoredResult.record rd) }) n
              = alookup ctx.rawResults n ∧
            alookup (TaskContext.violations
              { (runWrapper env t.meta (fun c => (c, r0)) ctx log).ctx with
                  results := aset ctx.results t.meta.name (StoredResult.record rd) }) n
              = alookup ctx.violations n := fun n hn => hloc n hn
        have hres1n : ∀ n, n ≠ t.meta.name →
            alookup (TaskContext.results
              { (runWrapper env t.meta (fun c => (c, r0)) ctx log).ctx with
                  results := aset ctx.results t.meta.name (StoredResult.record rd) }) n
            = alookup ctx.results n := by
          intro n hn
          rw [hres1, alookup_aset_ne _ _ _ _ hn]
        obtain ⟨ctx2, log2, h0, h1, h2, h3, h4, h5⟩ :=
          ih { (runWrapper env t.meta (fun c => (c, r0)) ctx log).ctx with
                 results := aset ctx.results t.meta.name (StoredResult.record rd) }
            (runWrapper env t.meta (fun c => (c, r0)) ctx log).log
            hdistinct2 (fun u hu => hinert u (List.mem_cons_of_mem t hu)) hwf1
            (fun u hu => by
              rw [hres1n u.meta.name (Ne.symm (hdhead u hu))]
              exact hfreshR u (List.mem_cons_of_mem t hu))
            (fun u hu => by
              rw [(hloc1 u.meta.name (Ne.symm (hdhead u hu))).1]
              exact hfreshS u (List.mem_cons_of_mem t hu))
        have hrun : runTasks env (fun _ => false) requested (t :: rest) ctx log
            = runTasks env (fun _ => false) requested rest
                { (runWrapper env t.meta (fun c => (c, r0)) ctx log).ctx with
                    results := aset ctx.results t.meta.name (StoredResult.record rd) }
                (runWrapper env t.meta (fun c => (c, r0)) ctx log).log := by
          simp only [runTasks, hskip]
          rw [hexec]
          simp only [Bool.false_eq_true, if_false]
        have hfinal : runTasks env (fun _ => false) requested (t :: rest) ctx log
            = some (ctx2, log2) := by
          rw [hrun]
          exact h0
        refine ⟨ctx2, log2, hfinal, h1, ?_, ?_, ?_, ?_⟩
        · -- untouched names
          intro n hn
          have hne : t.meta.name ≠ n := by
            intro he
            have hcontra := hn t (List.mem_cons_self t rest) he
            rw [he] at hskip
            exact hskip hcontra
          have hstep := hloc1 n (Ne.symm hne)
          have hstepR := hres1n n (Ne.symm hne)
          have hrest := h2 n (fun u hu hname => hn u (List.mem_cons_of_mem t hu) hname)
          exact ⟨hrest.1.trans hstepR, hrest.2.1.trans hstep.1,
            hrest.2.2.1.trans hstep.2.1, hrest.2.2.2.1.trans hstep.2.2.1,
            hrest.2.2.2.2.trans hstep.2.2.2⟩
        · -- status moves along the allowed path
          intro n
          by_cases hn : n = t.meta.name
          · subst hn
            have hq : ctx.get_status (some t.meta.name) = "queued" := by
              simp [TaskContext.get_status, TaskContext.resolveTaskName,
                hfreshS t (List.mem_cons_self t rest)]
            have h1step :
                TaskContext.get_status
                  { (runWrapper env t.meta (fun c => (c, r0)) ctx log).ctx with
                      results := aset ctx.results t.meta.name (StoredResult.record rd) }
                  (some t.meta.name) = rd.status := by
              simp [TaskContext.get_status, TaskContext.resolveTaskName, hstat1N]
            have h14 := h4 t.meta.name (by rw [h1step]; exact hst)
            rw [h1step] at h14
            rw [hq, h14]
            rcases hst with h | h
            · exact Or.inr (Or.inl ⟨rfl, Or.inr (Or.inl h)⟩)
            · exact Or.inr (Or.inl ⟨rfl, Or.inr (Or.inr h)⟩)
          · have hpre :
                TaskContext.get_status
                  { (runWrapper env t.meta (fun c => (c, r0)) ctx log).ctx with
                      results := aset ctx.results t.meta.name (StoredResult.record rd) }
                  (some n) = ctx.get_status (some n) := by
              simp [TaskContext.get_status, TaskContext.resolveTaskName,
                (hloc1 n hn).1]
            have h13 := h3 n
            rw [hpre] at h13
            exact h13
        · -- done and skipped are terminal
          intro n hn
          by_cases hne : n = t.meta.name
          · subst hne
            have hq : ctx.get_status (some t.meta.name) = "queued" := by
              simp [TaskContext.get_status, TaskContext.resolveTaskName,
                hfreshS t (List.mem_cons_self t rest)]
            rcases hn with h | h <;> rw [hq] at h <;> simp at h
          · have hpre :
                TaskContext.get_status
                  { (runWrapper env t.meta (fun c => (c, r0)) ctx log).ctx with
                      results := aset ctx.results t.meta.name (StoredResult.record rd) }
                  (some n) = ctx.get_status (some n) := by
              simp [TaskContext.get_status, TaskContext.resolveTaskName,
                (hloc1 n hne).1]
            have h14 := h4 n (by rw [hpre]; exact hn)
            rw [hpre] at h14
            exact h14
        · -- a stored success never changes
          intro n rr hrr
          by_cases hne : n = t.meta.name
          · subst hne
            rw [hfreshR t (List.mem_cons_self t rest)] at hrr
            exact absurd hrr (by simp)
          · exact h5 n rr (by rw [hres1n n hne]; exact hrr)

theorem mem_insertLe {α : Type} (le : α → α → Bool) (x z : α) (l : List α) :
    z ∈ insertLe le x l ↔ z = x ∨ z ∈ l := by
  induction l with
  | nil => simp [insertLe]
  | cons y ys ih =>
      by_cases h : le y x = true
      · simp only [insertLe, h, if_true, List.mem_cons, ih]
        tauto
      · simp only [insertLe, if_neg h, List.mem_cons]

theorem insertLe_pairwise {α : Type} (le : α → α → Bool)
    (htot : ∀ a b, le a b = true ∨ le b a = true)
    (htrans : ∀ a b c, le a b = true → le b c = true → le a c = true)
    (x : α) (l : List α) (hl : l.Pairwise (fun a b => le a b = true)) :
    (insertLe le x l).Pairwise (fun a b => le a b = true) := by
  induction l with
  | nil => simp [insertLe]
  | cons y ys ih =>
      rcases List.pairwise_cons.mp hl with ⟨hy, hys⟩
      by_cases hle : le y x = true
      · simp only [insertLe, hle, if_true]
        refine List.pairwise_cons.mpr ⟨?_, ih hys⟩
        intro z hz
        rcases (mem_insertLe le x z ys).mp hz with rfl | hz2
        · exact hle
        · exact hy z hz2
      · simp only [insertLe, if_neg hle]
        have hxy : le x y = true := (htot x y).resolve_right (fun h => hle h)
        refine List.pairwise_cons.mpr ⟨?_, hl⟩
        intro z hz
        rcases List.mem_cons.mp hz with rfl | hz2
        · exact hxy
        · exact htrans x y z hxy (hy z hz2)

theorem foldl_insertLe_pairwise {α : Type} (le : α → α → Bool)
    (htot : ∀ a b, le a b = true ∨ le b a = true)
    (htrans : ∀ a b c, le a b = true → le b c = true → le a c = true)
    (l acc : List α) (hacc : acc.Pairwise (fun a b => le a b = true)) :
    (l.foldl (fun acc x => insertLe le x acc) acc).Pairwise
      (fun a b => le a b = true) := by
  induction l generalizing acc with
  | nil => exact hacc
  | cons x xs ih =>
      exact ih (insertLe le x acc) (insertLe_pairwise le htot htrans x acc hacc)

theorem sortLe_pairwise {α : Type} (le : α → α → Bool)
    (htot : ∀ a b, le a b = true ∨ le b a = true)
    (htrans : ∀ a b c, le a b = true → le b c = true → le a c = true)
    (l : List α) :
    (sortLe le l).Pairwise (fun a b => le a b = true) :=
  foldl_insertLe_pairwise le htot htrans l [] (List.Pairwise.nil)

theorem filter_insertLe_pos {α : Type} (le : α → α → Bool) (p : α → Bool)
    (htrans : ∀ a b c, le a b = true → le b c = true → le a c = true)
    (x : α) (l : List α) (hl : l.Pairwise (fun a b => le a b = true))
    (hx : p x = true) (hclass : ∀ z, p z = true → le z x = true) :
    (insertLe le x l).filter p = l.filter p ++ [x] := by
  induction l with
  | nil => simp [insertLe, hx]
  | cons y ys ih =>
      rcases List.pairwise_cons.mp hl with ⟨hy, hys⟩
      by_cases hle : le y x = true
      · simp only [insertLe, hle, if_true, List.filter_cons]
        by_cases hpy : p y = true
        · simp [hpy, ih hys]
        · simp only [Bool.not_eq_true] at hpy
          simp [hpy, ih hys]
      · have hstep : insertLe le x (y :: ys) = x :: y :: ys := by
          simp only [insertLe, if_neg hle]
        have hnone : (y :: ys).filter p = [] := by
          rw [List.filter_eq_nil_iff]
          intro z hz
          intro hpz
          rcases List.mem_cons.mp hz with rfl | hz2
          · exact hle (hclass z hpz)
          · exact hle (htrans y z x (hy z hz2) (hclass z hpz))
        rw [hstep, hnone]
        simp [List.filter_cons, hx, hnone]

theorem filter_insertLe_neg {α : Type} (le : α → α → Bool) (p : α → Bool)
    (x : α) (l : List α) (hx : p x = false) :
    (insertLe le x l).filter p = l.filter p := by
  induction l with
  | nil => simp [insertLe, hx]
  | cons y ys ih =>
      by_cases hle : le y x = true
      · simp only [insertLe, hle, if_true, List.filter_cons]
        rw [ih]
      · simp only [insertLe, if_neg hle]
        simp [List.filter_cons, hx]

theorem foldl_insertLe_filter {α : Type} (le : α → α → Bool) (p : α → Bool)
    (htot : ∀ a b, le a b = true ∨ le b a = true)
    (htrans : ∀ a b c, le a b = true → le b c = true → le a c = true)
    (hrefl : ∀ a b, p a = true → p b = true → le a b = true)
    (l acc : List α) (hacc : acc.Pairwise (fun a b => le a b = true)) :
    (l.foldl (fun acc x => insertLe le x acc) acc).filter p
      = acc.filter p ++ l.filter p := by
  induction l generalizing acc with
  | nil => simp
  | cons x xs ih =>
      have hacc2 := insertLe_pairwise le htot htrans x acc hacc
      by_cases hpx : p x = true
      · have hstep := filter_insertLe_pos le p htrans x acc hacc hpx
          (fun z hz => hrefl z x hz hpx)
        calc ((x :: xs).foldl (fun acc x => insertLe le x acc) acc).filter p
            = (insertLe le x acc).filter p ++ xs.filter p := ih (insertLe le x acc) hacc2
          _ = acc.filter p ++ [x] ++ xs.filter p := by rw [hstep]
          _ = acc.filter p ++ (x :: xs).filter p := by
              simp [List.filter_cons, hpx]
      · simp only [Bool.not_eq_true] at hpx
        have hstep := filter_insertLe_neg le p x acc hpx
        calc ((x :: xs).foldl (fun acc x => insertLe le x acc) acc).filter p
            = (insertLe le x acc).filter p ++ xs.filter p := ih (insertLe le x acc) hacc2
          _ = acc.filter p ++ xs.filter p := by rw [hstep]
          _ = acc.filter p ++ (x :: xs).filter p := by
              simp [List.filter_cons, hpx]

theorem sortLe_filter_classes {α : Type} (le : α → α → Bool) (p : α → Bool)
    (htot : ∀ a b, le a b = true ∨ le b a = true)
    (htrans : ∀ a b c, le a b = true → le b c = true → le a c = true)
    (hrefl : ∀ a b, p a = true → p b = true → le a b = true)
    (l : List α) :
    (sortLe le l).filter p = l.filter p :=
  foldl_insertLe_filter le p htot htrans hrefl l [] List.Pairwise.nil

theorem strLeAux_total (as bs : List Char) :
    strLeAux as bs = true ∨ strLeAux bs as = true := by
  induction as generalizing bs with
  | nil => exact Or.inl rfl
  | cons a as2 ih =>
      cases bs with
      | nil => exact Or.inr rfl
      | cons b bs2 =>
          by_cases h1 : a.toNat < b.toNat
          · left
            simp [strLeAux, h1]
          · by_cases h2 : b.toNat < a.toNat
            · right
              simp [strLeAux, h2]
            · rcases ih bs2 with h | h
              · left
                simp [strLeAux, h1, h2, h]
              · right
                simp [strLeAux, h1, h2, h]

theorem strLeAux_trans (as bs cs : List Char) (h1 : strLeAux as bs = true)
    (h2 : strLeAux bs cs = true) : strLeAux as cs = true := by
  induction as generalizing bs cs with
  | nil => rfl
  | cons a as2 ih =>
      cases bs with
      | nil => simp [strLeAux] at h1
      | cons b bs2 =>
          cases cs with
          | nil => simp [strLeAux] at h2
          | cons c cs2 =>
              simp only [strLeAux] at h1 h2 ⊢
              by_cases hab : a.toNat < b.toNat
              · by_cases hbc : b.toNat < c.toNat
                · have hac : a.toNat < c.toNat := Nat.lt_trans hab hbc
                  simp [hac]
                · by_cases hcb : c.toNat < b.toNat
                  · simp [hbc, hcb] at h2
                  · have hac : a.toNat < c.toNat := by omega
                    simp [hac]
              · by_cases hba : b.toNat < a.toNat
                · simp [hab, hba] at h1
                · simp only [hab, hba, if_false] at h1
                  by_cases hbc : b.toNat < c.toNat
                  · have hac : a.toNat < c.toNat := by omega
                    simp [hac]
                  · by_cases hcb : c.toNat < b.toNat
                    · simp [hbc, hcb] at h2
                    · simp only [hbc, hcb, if_false] at h2
                      have hac1 : ¬ a.toNat < c.toNat := by omega
                      have hac2 : ¬ c.toNat < a.toNat := by omega
                      simp only [hac1, hac2, if_false]
                      exact ih bs2 cs2 h1 h2

theorem strLe_total (a b : String) : strLe a b = true ∨ strLe b a = true :=
  strLeAux_total a.data b.data

theorem strLe_trans (a b c : String) (h1 : strLe a b = true)
    (h2 : strLe b c = true) : strLe a c = true :=
  strLeAux_trans a.data b.data c.data h1 h2

theorem orderLe_total (a b : RegisteredTask) :
    orderLe a b = true ∨ orderLe b a = true := by
  rcases Int.le_total a.meta.order b.meta.order with h | h
  · left
    simpa [orderLe] using h
  · right
    simpa [orderLe] using h

theorem orderLe_trans (a b c : RegisteredTask) (h1 : orderLe a b = true)
    (h2 : orderLe b c = true) : orderLe a c = true := by
  simp only [orderLe, decide_eq_true_eq] at h1 h2 ⊢
  exact le_trans h1 h2

theorem dirOrder_sorted (cls : List RegisteredTask) :
    (dirOrder cls).Pairwise (fun a b => strLe a.attrName b.attrName = true) :=
  sortLe_pairwise _ (fun a b => strLe_total a.attrName b.attrName)
    (fun a b c => strLe_trans a.attrName b.attrName c.attrName) cls

theorem plannedTasks_sorted (cls : List RegisteredTask) :
    (plannedTasks cls).Pairwise (fun a b => orderLe a b = true) :=
  sortLe_pairwise orderLe orderLe_total orderLe_trans _

theorem plannedTasks_ties (cls : List RegisteredTask) (k : Int) :
    (plannedTasks cls).filter (fun u => u.meta.order == k)
      = ((dirOrder cls).filter (fun u => u.meta.enabled)).filter
          (fun u => u.meta.order == k) := by
  unfold plannedTasks sortLe
  refine foldl_insertLe_filter orderLe _ orderLe_total orderLe_trans ?_ _ []
    List.Pairwise.nil
  intro a b ha hb
  simp only [beq_iff_eq] at ha hb
  simp [orderLe, ha, hb]

theorem plannedTasks_ties_attr_sorted (cls : List RegisteredTask) (k : Int) :
    ((plannedTasks cls).filter (fun u => u.meta.order == k)).Pairwise
      (fun a b => strLe a.attrName b.attrName = true) := by
  rw [plannedTasks_ties]
  exact ((dirOrder_sorted cls).filter _).filter _

theorem validateReturn_ok_shape (v : Value) (out : Validated)
    (hval : validateReturn v = Except.ok out) :
    ∃ kvs, v = Value.vDict kvs ∧ out.stored = aremove kvs "violation" ∧
      ∃ d, alookup kvs "data" = some d ∧ isDictOrList d = true := by
  cases v with
  | vNone => simp [validateReturn] at hval
  | vBool b => simp [validateReturn] at hval
  | vInt n => simp [validateReturn] at hval
  | vStr t => simp [validateReturn] at hval
  | vList l => simp [validateReturn] at hval
  | vDict kvs =>
      refine ⟨kvs, rfl, ?_⟩
      simp only [validateReturn] at hval
      by_cases hc : acontains kvs "data"
      · simp only [hc, Bool.not_true, Bool.false_eq_true, if_false] at hval
        cases hd : alookup kvs "data" with
        | none => rw [hd] at hval; simp at hval
        | some d =>
            rw [hd] at hval
            cases d with
            | vNone => simp at hval
            | vBool b2 => simp at hval
            | vInt n2 => simp at hval
            | vStr t2 => simp at hval
            | vDict kvs2 =>
                cases hv2 : (alookup kvs "violation").getD (.vBool false) with
                | vBool b =>
                    rw [hv2] at hval
                    cases hm : (alookup kvs "message").getD .vNone with
                    | vNone =>
                        rw [hm] at hval
                        injection hval with h
                        rw [← h]
                        exact ⟨rfl, Value.vDict kvs2, rfl, rfl⟩
                    | vStr st =>
                        rw [hm] at hval
                        injection hval with h
                        rw [← h]
                        exact ⟨rfl, Value.vDict kvs2, rfl, rfl⟩
                    | vBool b3 => rw [hm] at hval; simp at hval
                    | vInt n3 => rw [hm] at hval; simp at hval
                    | vList l3 => rw [hm] at hval; simp at hval
                    | vDict kv3 => rw [hm] at hval; simp at hval
                | vNone => rw [hv2] at hval; simp at hval
                | vInt n3 => rw [hv2] at hval; simp at hval
                | vStr t3 => rw [hv2] at hval; simp at hval
                | vList l3 => rw [hv2] at hval; simp at hval
                | vDict kv3 => rw [hv2] at hval; simp at hval
            | vList l2 =>
                cases hv2 : (alookup kvs "violation").getD (.vBool false) with
                | vBool b =>
                    rw [hv2] at hval
                    cases hm : (alookup kvs "message").getD .vNone with
                    | vNone =>
                        rw [hm] at hval
                        injection hval with h
                        rw [← h]
                        exact ⟨rfl, Value.vList l2, rfl, rfl⟩
                    | vStr st =>
                        rw [hm] at hval
                        injection hval with h
                        rw [← h]
                        exact ⟨rfl, Value.vList l2, rfl, rfl⟩
                    | vBool b3 => rw [hm] at hval; simp at hval
                    | vInt n3 => rw [hm] at hval; simp at hval
                    | vList l3 => rw [hm] at hval; simp at hval
                    | vDict kv3 => rw [hm] at hval; simp at hval
                | vNone => rw [hv2] at hval; simp at hval
                | vInt n3 => rw [hv2] at hval; simp at hval
                | vStr t3 => rw [hv2] at hval; simp at hval
                | vList l3 => rw [hv2] at hval; simp at hval
                | vDict kv3 => rw [hv2] at hval; simp at hval
      · simp only [hc] at hval
        simp at hval

theorem mem_foldl_insertLe {α : Type} (le : α → α → Bool) (l acc : List α)
    (z : α) :
    z ∈ l.foldl (fun acc x => insertLe le x acc) acc ↔ z ∈ acc ∨ z ∈ l := by
  induction l generalizing acc with
  | nil => simp
  | cons x xs ih =>
      simp only [List.foldl_cons, ih, mem_insertLe, List.mem_cons]
      tauto

theorem mem_sortLe {α : Type} (le : α → α → Bool) (l : List α) (z : α) :
    z ∈ sortLe le l ↔ z ∈ l := by
  unfold sortLe
  rw [mem_foldl_insertLe]
  simp

theorem mem_plannedTasks (cls : List RegisteredTask) (t : RegisteredTask)
    (h : t ∈ plannedTasks cls) : t ∈ cls := by
  unfold plannedTasks at h
  rw [mem_sortLe] at h
  have h2 := List.mem_of_mem_filter h
  unfold dirOrder at h2
  rw [mem_sortLe] at h2
  exact h2

/-- C1: the claim says that when a selected, enabled task exceeds the per-run
deadline or raises past the wrapper, the orchestrator records a synthetic
failed ResultRecord (success false, explanatory error) for it. The code
instead executes the chained assignment of base_runner.py line 375, which
binds the assigned value False to task_output, so the result-map entry of the
timed-out task t1 is the bare boolean False rather than any record, and a
later format_result for t1 raises AttributeError instead of returning a
ResultRecord. -/
theorem c1_circuit_bare_false : c1check = true := by rfl

/-- C3 counterexample: the wrapper marks a task successful on the returned
value with data present and the message key bound to None, although the shape
the claim states (message, if present, must be a string) rejects that value,
so the claimed equivalence fails at this input. -/
theorem c3_counterexample : c3check = true ∧ claimC3Shape c3value = false :=
  ⟨rfl, rfl⟩

/-- C5 counterexample: two enabled collectors with equal order 100 are
registered with the z-named function first; the claim says the
first-registered executes first, but the planned execution order is
alphabetical by function attribute name, so a_check runs before z_check. -/
theorem c5_ties_counterexample :
    (register_tasks [] [c5zTask, c5aTask]).map (fun t => t.meta.name)
      = ["z_check", "a_check"] ∧
    c5zTask.meta.order = c5aTask.meta.order ∧
    plannedNames (register_tasks [] [c5zTask, c5aTask]) = ["a_check", "z_check"] :=
  ⟨rfl, rfl, rfl⟩

/-- C7 counterexample: registering two task functions with the same function
name and task name silently replaces the first with the second (no rejection,
one surviving entry), and registering two functions with distinct function
names but the same task metadata name accepts both. -/
theorem c7_counterexample :
    (register_tasks [] [c7taskA, c7taskB]).map (fun t => t.meta.title)
      = ["second"] ∧
    (register_tasks [] [c7taskC, c7taskD]).map (fun t => t.meta.name)
      = ["dup", "dup"] :=
  ⟨rfl, rfl⟩

/-- C8 counterexample: after a run in which the task boom raised, its stored
raw result is the empty default and does not contain the data key, so the
claimed invariant that every raw result always holds a data mapping or
sequence fails. -/
theorem c8_counterexample : c8check = false := by rfl

/-- C2: for a task whose declared dependency list has a first failing entry d
(after passing entries), the wrapper skips the task before invoking the body:
if d has no recorded result the task is marked skipped with exactly the error
naming d as not executed; if d has a recorded result whose success is false
it is marked skipped with exactly the failed-dependency error; in both cases
the outcome is identical for any two bodies (the body is never invoked) and
only the first failing dependency contributes an error; and a task with an
empty depends_on list is never stopped by the gate. -/
theorem c2_dependency_gate (env : WrapperEnv) (meta : TaskMeta)
    (bodyA bodyB : TaskBody) (ctx : TaskContext) (log : RunLog)
    (pre post : List String) (d : String)
    (hsplit : meta.dependsOn = pre ++ d :: post)
    (hpre : ∀ x ∈ pre, ∃ rr, alookup ctx.results x = some (StoredResult.record rr)
      ∧ rr.success = true)
    (hfresh : alookup ctx.results meta.name = Option.none) :
    ((alookup ctx.results d = Option.none →
        ∃ rd, (runWrapper env meta bodyA ctx log).res = Except.ok rd ∧
          rd.status = "skipped" ∧ rd.success = false ∧
          rd.errors = ctx.get_errors (some meta.name)
            ++ ["Dependency " ++ q d ++ " was not executed"] ∧
          runWrapper env meta bodyA ctx log = runWrapper env meta bodyB ctx log) ∧
      (∀ rr, alookup ctx.results d = some (StoredResult.record rr) →
        rr.success = false →
        ∃ rd, (runWrapper env meta bodyA ctx log).res = Except.ok rd ∧
          rd.status = "skipped" ∧ rd.success = false ∧
          rd.errors = ctx.get_errors (some meta.name)
            ++ ["Dependency " ++ q d ++ " failed - skipping task"] ∧
          runWrapper env meta bodyA ctx log = runWrapper env meta bodyB ctx log)) ∧
    (∀ (meta2 : TaskMeta) (log2 : RunLog) (ctx2 : TaskContext),
      depGate meta2 log2 [] ctx2 = GateResult.pass ctx2 log2) := by
  have hcur0 : (wrapperEntry meta ctx).currentTask = some meta.name := rfl
  have hfresh0 : alookup (wrapperEntry meta ctx).results meta.name
      = Option.none := hfresh
  have hpre0 : ∀ x ∈ pre, ∃ rr,
      alookup (wrapperEntry meta ctx).results x = some (StoredResult.record rr)
        ∧ rr.success = true := hpre
  refine ⟨⟨?_, ?_⟩, fun meta2 log2 ctx2 => rfl⟩
  · intro hd
    have hgate : depGate meta log meta.dependsOn (wrapperEntry meta ctx)
        = GateResult.halt (gateFail meta
            ("Dependency " ++ q d ++ " was not executed") false
            (wrapperEntry meta ctx) log) := by
      rw [hsplit]
      exact depGate_first_missing meta log pre post d (wrapperEntry meta ctx)
        hpre0 hd
    have hrunA : runWrapper env meta bodyA ctx log
        = gateFail meta ("Dependency " ++ q d ++ " was not executed") false
            (wrapperEntry meta ctx) log := by
      simp only [runWrapper]
      rw [hgate]
    have hrunB : runWrapper env meta bodyB ctx log
        = gateFail meta ("Dependency " ++ q d ++ " was not executed") false
            (wrapperEntry meta ctx) log := by
      simp only [runWrapper]
      rw [hgate]
    obtain ⟨rd, hres, hst, hsucc, hty, herr, _, _, _, _, _, _⟩ :=
      gateFail_spec meta ("Dependency " ++ q d ++ " was not executed") false
        (wrapperEntry meta ctx) log hfresh0 hcur0
    exact ⟨rd, by rw [hrunA]; exact hres, hst, hsucc, herr, hrunA.trans hrunB.symm⟩
  · intro rr hd hrs
    have hgate : depGate meta log meta.dependsOn (wrapperEntry meta ctx)
        = GateResult.halt (gateFail meta
            ("Dependency " ++ q d ++ " failed - skipping task") true
            (wrapperEntry meta ctx) log) := by
      rw [hsplit]
      exact depGate_first_failed meta log pre post d (wrapperEntry meta ctx) rr
        hpre0 hd hrs
    have hrunA : runWrapper env meta bodyA ctx log
        = gateFail meta ("Dependency " ++ q d ++ " failed - skipping task") true
            (wrapperEntry meta ctx) log := by
      simp only [runWrapper]
      rw [hgate]
    have hrunB : runWrapper env meta bodyB ctx log
        = gateFail meta ("Dependency " ++ q d ++ " failed - skipping task") true
            (wrapperEntry meta ctx) log := by
      simp only [runWrapper]
      rw [hgate]
    obtain ⟨rd, hres, hst, hsucc, hty, herr, _, _, _, _, _, _⟩ :=
      gateFail_spec meta ("Dependency " ++ q d ++ " failed - skipping task") true
        (wrapperEntry meta ctx) log hfresh0 hcur0
    exact ⟨rd, by rw [hrunA]; exact hres, hst, hsucc, herr, hrunA.trans hrunB.symm⟩

/-- C3 amended: for every value returned by a task body, the wrapper marks
the task successful if and only if the value is a dict containing the key
data bound to a dict or list, whose violation key (if present) is a bool,
and whose message key (if present) is a string or None; any other shape is
recorded as a task failure whose descriptive error is appended to the error
list, while unrecognized extra keys only produce a non-fatal warning and do
not affect the success flag. -/
theorem c3_amended (env : WrapperEnv) (meta : TaskMeta) (ctx : TaskContext)
    (log : RunLog) (v : Value)
    (hdeps : meta.dependsOn = [])
    (hfresh : alookup ctx.results meta.name = Option.none) :
    ∃ rd, (runWrapper env meta (fun c => (c, Except.ok v)) ctx log).res
        = Except.ok rd ∧
      rd.success = amendedShape v ∧
      (∀ m, validateReturn v = Except.error m →
        rd.errors = ctx.get_errors (some meta.name) ++ [m]) ∧
      (∀ out, validateReturn v = Except.ok out →
        (runWrapper env meta (fun c => (c, Except.ok v)) ctx log).log.warnings
          = log.warnings ++
            (if out.unexpectedKeys.isEmpty then []
             else [unexpectedWarn meta.name out.unexpectedKeys])) := by
  cases hval : validateReturn v with
  | error m0 =>
      obtain ⟨rd, hres, hsucc, hst, hty, herr, hviol, hatt, hwarn, hstore⟩ :=
        runWrapper_invalid_return env meta ctx log v m0 hdeps hfresh hval
      refine ⟨rd, hres, ?_, ?_, ?_⟩
      · rw [hsucc, ← validateReturn_isOk_iff, hval]
        rfl
      · intro m hm
        injection hm with h
        rw [← h]
        exact herr
      · intro out hout
        exact absurd hout (by simp)
  | ok out0 =>
      obtain ⟨rd, hres, hsucc, hst, hty, hviol, hout, herr, hatt, hwarn,
          hstore, hraw⟩ :=
        runWrapper_valid_return env meta ctx log v out0 hdeps hfresh hval
      refine ⟨rd, hres, ?_, ?_, ?_⟩
      · rw [hsucc, ← validateReturn_isOk_iff, hval]
        rfl
      · intro m hm
        exact absurd hm (by simp)
      · intro out hout
        injection hout with h
        rw [← h]
        exact hwarn

/-- C4: after a task with no dependencies finishes, a violation report is
attempted exactly once if and only if the task type is insight, the task
succeeded, and its stored violation flag is true; a collector task never
triggers a report; and when the report attempt fails, the task keeps
success = true and only gains an extra error string. -/
theorem c4_auto_report (env : WrapperEnv) (meta : TaskMeta) (ctx : TaskContext)
    (log : RunLog) (bres : Except String Value)
    (hdeps : meta.dependsOn = [])
    (hfresh : alookup ctx.results meta.name = Option.none) :
    ∃ rd, (runWrapper env meta (fun c => (c, bres)) ctx log).res = Except.ok rd ∧
      rd.success = wrapSuccess bres ∧
      rd.isViolation = wrapViolation bres (ctx.get_violation (some meta.name)) ∧
      (runWrapper env meta (fun c => (c, bres)) ctx log).log.reportAttempts
        = log.reportAttempts ++
          (if meta.ttype == "insight" && wrapSuccess bres
              && wrapViolation bres (ctx.get_violation (some meta.name))
           then [meta.name] else []) ∧
      (meta.ttype = "collector" →
        (runWrapper env meta (fun c => (c, bres)) ctx log).log.reportAttempts
          = log.reportAttempts) ∧
      (∀ e, meta.ttype = "insight" →
        wrapSuccess bres = true →
        wrapViolation bres (ctx.get_violation (some meta.name)) = true →
        env.reportPost meta.name = Except.error e →
        rd.success = true ∧
        ("Failed to create violation: " ++ e) ∈ rd.errors) := by
  cases bres with
  | error e0 =>
      obtain ⟨rd, hres, hsucc, hst, hty, herr, hviol, hatt, hwarn, hstore⟩ :=
        runWrapper_body_raises env meta ctx log e0 hdeps hfresh
      refine ⟨rd, hres, ?_, ?_, ?_, ?_, ?_⟩
      · rw [hsucc]; rfl
      · rw [hviol]; rfl
      · rw [hatt]
        simp [wrapSuccess]
      · intro _
        exact hatt
      · intro e _ hws
        simp [wrapSuccess] at hws
  | ok v =>
      cases hval : validateReturn v with
      | error m0 =>
          obtain ⟨rd, hres, hsucc, hst, hty, herr, hviol, hatt, hwarn, hstore⟩ :=
            runWrapper_invalid_return env meta ctx log v m0 hdeps hfresh hval
          refine ⟨rd, hres, ?_, ?_, ?_, ?_, ?_⟩
          · rw [hsucc]
            simp [wrapSuccess, hval, Except.isOk, Except.toBool]
          · rw [hviol]
            simp [wrapViolation, hval]
          · rw [hatt]
            simp [wrapSuccess, hval, Except.isOk, Except.toBool]
          · intro _
            exact hatt
          · intro e _ hws
            simp [wrapSuccess, hval, Except.isOk, Except.toBool] at hws
      | ok out =>
          obtain ⟨rd, hres, hsucc, hst, hty, hviol, hout, herr, hatt, hwarn,
              hstore, hraw⟩ :=
            runWrapper_valid_return env meta ctx log v out hdeps hfresh hval
          have hws : wrapSuccess (Except.ok v) = true := by
            simp [wrapSuccess, hval, Except.isOk, Except.toBool]
          have hwv : wrapViolation (Except.ok v)
              (ctx.get_violation (some meta.name)) = out.violation := by
            simp [wrapViolation, hval]
          refine ⟨rd, hres, ?_, ?_, ?_, ?_, ?_⟩
          · rw [hsucc, hws]
          · rw [hviol, hwv]
          · rw [hatt, hws, hwv]
            simp
          · intro hcol
            rw [hatt, hcol]
            simp
          · intro e hins _ hwv2 hpost
            rw [hwv] at hwv2
            refine ⟨hsucc, ?_⟩
            rw [herr, hins, hwv2, hpost]
            simp

/-- C8 amended: whenever the wrapper accepts and stores a raw result (the
task body returned a validated value), that stored raw result contains the
key data bound to a dict or a list, the final record reports it as the
output, and the task succeeds; tasks that fail or are skipped store no raw
result at all (their raw result reads back as an empty dict without data, as
the counterexample shows). -/
theorem c8_amended (env : WrapperEnv) (meta : TaskMeta) (ctx : TaskContext)
    (log : RunLog) (v : Value) (out : Validated)
    (hdeps : meta.dependsOn = [])
    (hfresh : alookup ctx.results meta.name = Option.none)
    (hval : validateReturn v = Except.ok out) :
    (∃ d, alookup out.stored "data" = some d ∧ isDictOrList d = true) ∧
    ∃ rd, (runWrapper env meta (fun c => (c, Except.ok v)) ctx log).res
        = Except.ok rd ∧
      rd.success = true ∧
      rd.output = Value.vDict out.stored ∧
      alookup (runWrapper env meta (fun c => (c, Except.ok v)) ctx log).ctx.rawResults
          meta.name = some (Value.vDict out.stored) := by
  obtain ⟨kvs, hv, hstored, d, hd, hdl⟩ := validateReturn_ok_shape v out hval
  obtain ⟨rd, hres, hsucc, hst, hty, hviol, hout, herr, hatt, hwarn,
      hstore, hraw⟩ :=
    runWrapper_valid_return env meta ctx log v out hdeps hfresh hval
  refine ⟨⟨d, ?_, hdl⟩, rd, hres, hsucc, hout, hraw⟩
  rw [hstored, alookup_aremove_ne _ _ _ (by decide)]
  exact hd

/-- C5 amended: the orchestrator executes the enabled tasks sorted by order
ascending, where order defaults to 100 for collectors and 500 for insights;
for equal order values, tasks execute in ascending alphabetical order of the
function attribute name (the order of the sorted class attribute listing),
independent of registration order: the equal-order slice of the planned list
is exactly the attribute-sorted enabled slice, and is itself sorted by
attribute name. -/
theorem c5_amended_order (cls : List RegisteredTask) (k : Int)
    (n t : String) (d : Option String) (e : Bool) (sev : Option String)
    (dep : Option (List String)) :
    (mkTaskMeta n t d e "collector" Option.none sev dep).order = 100 ∧
    (mkTaskMeta n t d e "insight" Option.none sev dep).order = 500 ∧
    (plannedTasks cls).Pairwise (fun a b => orderLe a b = true) ∧
    (plannedTasks cls).filter (fun u => u.meta.order == k)
      = ((dirOrder cls).filter (fun u => u.meta.enabled)).filter
          (fun u => u.meta.order == k) ∧
    ((plannedTasks cls).filter (fun u => u.meta.order == k)).Pairwise
      (fun a b => strLe a.attrName b.attrName = true) :=
  ⟨rfl, rfl, plannedTasks_sorted cls, plannedTasks_ties cls k,
    plannedTasks_ties_attr_sorted cls k⟩

/-- C6: when the run is given a non-empty explicit subset of task names,
every name outside the subset has no entry in the result map at the end of
the run, and requesting a result for such a name yields the default record
with status queued (hence distinguishable from any skipped record, whose
status is skipped) and success true. -/
theorem c6_subset_filter (env : WrapperEnv) (cls : List RegisteredTask)
    (requested : List String) (base : List (String × Value))
    (controls : List (String × List (String × String))) (n : String)
    (hreq : requested.isEmpty = false)
    (hn : requested.contains n = false)
    (hdistinct : (plannedTasks cls).Pairwise (fun a b => a.meta.name ≠ b.meta.name))
    (hinert : ∀ t ∈ cls, InertBody t.body) :
    ∃ ctx2 log2,
      stageTwoStart env (fun _ => false) cls requested base controls
        = some (ctx2, log2) ∧
      alookup ctx2.results n = Option.none ∧
      ∃ r, ctx2.format_result (some n) = some r ∧
        r.success = true ∧ r.status = "queued" ∧ r.status ≠ "skipped" ∧
        r.ttype = "collector" ∧ ctx2.succeeded (some n) = some true := by
  obtain ⟨ctx2, log2, h0, h1, h2, h3, h4, h5⟩ :=
    runTasks_spec env requested (plannedTasks cls)
      (TaskContext.init base controls) RunLog.init hdistinct
      (fun u hu => hinert u (mem_plannedTasks cls u hu))
      (fun n2 r h => by simp [TaskContext.init, alookup] at h)
      (fun u hu => rfl)
      (fun u hu => rfl)
  have hn2 : n ∉ requested := by simpa using hn
  obtain ⟨hres, hstat, herr, hraw, hviol⟩ :=
    h2 n (fun u hu hname => by simp [hreq, hn2])
  have hres0 : alookup ctx2.results n = Option.none := by
    rw [hres]; rfl
  have hstat0 : alookup ctx2.status n = Option.none := by
    rw [hstat]; rfl
  have hraw0 : alookup ctx2.rawResults n = Option.none := by
    rw [hraw]; rfl
  refine ⟨ctx2, log2, h0, hres0,
    ctx2.formatFields n true "collector",
    format_result_fresh ctx2 n hres0, rfl, ?_, ?_, rfl, ?_⟩
  · simp [TaskContext.formatFields, TaskContext.get_status,
      TaskContext.resolveTaskName, hstat0]
  · simp [TaskContext.formatFields, TaskContext.get_status,
      TaskContext.resolveTaskName, hstat0]
  · rw [TaskContext.succeeded, format_result_fresh ctx2 n hres0]
    rfl

/-- C7 amended: registration performs no duplicate detection: a sequence of
task functions with pairwise-distinct function names is accepted verbatim
regardless of metadata-name collisions, and registering a function whose
function name already exists silently replaces the existing attribute in
place (same registry size, the entry under that name is now the new
function), with no rejection in either case. -/
theorem c7_amended (cls : List RegisteredTask) (t : RegisteredTask)
    (ts : List RegisteredTask) :
    (List.Pairwise (fun a b => a.attrName ≠ b.attrName) ts →
      (∀ u ∈ ts, (cls.any (fun w => w.attrName == u.attrName)) = false) →
      register_tasks cls ts = cls ++ ts) ∧
    ((cls.any (fun u => u.attrName == t.attrName)) = true →
      (setattrTask cls t).length = cls.length ∧
      (setattrTask cls t).find? (fun u => u.attrName == t.attrName) = some t) := by
  constructor
  · induction ts generalizing cls with
    | nil =>
        intro _ _
        simp [register_tasks]
    | cons u us ih =>
        intro hpw hany
        have hstep : setattrTask cls u = cls ++ [u] := by
          simp only [setattrTask, hany u (List.mem_cons_self u us),
            Bool.false_eq_true, if_false]
        have hclean : ∀ w ∈ us,
            ((cls ++ [u]).any (fun x => x.attrName == w.attrName)) = false := by
          intro w hw
          rw [List.any_append]
          have h1 : cls.any (fun x => x.attrName == w.attrName) = false :=
            hany w (List.mem_cons_of_mem u hw)
          have h2 : (u.attrName == w.attrName) = false := by
            have h3 := (List.pairwise_cons.mp hpw).1 w hw
            simp [h3]
          simp [h1, h2]
        have hrec : register_tasks cls (u :: us)
            = register_tasks (setattrTask cls u) us := rfl
        rw [hrec, hstep, ih (cls ++ [u]) (List.pairwise_cons.mp hpw).2 hclean]
        simp
  · intro hany
    induction cls with
    | nil => simp [List.any] at hany
    | cons w ws ih =>
        have hset : setattrTask (w :: ws) t
            = (w :: ws).map (fun u => if u.attrName == t.attrName then t else u) := by
          simp only [setattrTask, hany, if_true]
        rw [hset]
        refine ⟨by simp, ?_⟩
        by_cases hw : (w.attrName == t.attrName) = true
        · simp [List.map_cons, List.find?, hw]
        · have hw2 : (w.attrName == t.attrName) = false := by
            simpa using hw
          have hany2 : ws.any (fun u => u.attrName == t.attrName) = true := by
            simp only [List.any_cons, hw2, Bool.false_or] at hany
            exact hany
          have hih := ih hany2
          have hset2 : setattrTask ws t
              = ws.map (fun u => if u.attrName == t.attrName then t else u) := by
            simp only [setattrTask, hany2, if_true]
          rw [hset2] at hih
          simp only [List.map_cons, hw2, Bool.false_eq_true, if_false,
            List.find?, hw2]
          exact hih.2

/-- C9: over any run segment of distinct, not-yet-started tasks, every task
name's status moves only along the one-directional paths queued to
in_progress to done or skipped (each wrapped execution first marks its task
in_progress, and the segment moves each status by an admissible step with
done and skipped terminal), and once a result record is stored for a name its
success field never changes for the remainder of the run. -/
theorem c9_status_monotone (env : WrapperEnv) (requested : List String)
    (tasks : List RegisteredTask) (ctx : TaskContext) (log : RunLog)
    (hdistinct : List.Pairwise (fun a b => a.meta.name ≠ b.meta.name) tasks)
    (hinert : ∀ t ∈ tasks, InertBody t.body)
    (hwf : ∀ n r, alookup ctx.results n = some r → ∃ rr, r = StoredResult.record rr)
    (hfreshR : ∀ t ∈ tasks, alookup ctx.results t.meta.name = Option.none)
    (hfreshS : ∀ t ∈ tasks, alookup ctx.status t.meta.name = Option.none) :
    ∃ ctx2 log2,
      runTasks env (fun _ => false) requested tasks ctx log = some (ctx2, log2) ∧
      (∀ n, statusStep (ctx.get_status (some n)) (ctx2.get_status (some n))) ∧
      (∀ n, (ctx.get_status (some n) = "done" ∨ ctx.get_status (some n) = "skipped") →
        ctx2.get_status (some n) = ctx.get_status (some n)) ∧
      (∀ n rr, alookup ctx.results n = some (StoredResult.record rr) →
        ∃ rr2, alookup ctx2.results n = some (StoredResult.record rr2) ∧
          rr2.success = rr.success) ∧
      (∀ (m : TaskMeta) (c : TaskContext),
        (wrapperEntry m c).get_status (some m.name) = "in_progress") := by
  obtain ⟨ctx2, log2, h0, h1, h2, h3, h4, h5⟩ :=
    runTasks_spec env requested tasks ctx log hdistinct hinert hwf hfreshR hfreshS
  refine ⟨ctx2, log2, h0, h3, h4, h5, ?_⟩
  intro m c
  simp [wrapperEntry, TaskContext.get_status, TaskContext.resolveTaskName,
    alookup_aset_self]

/-- C10: for every task name with no entry in the results map and no stored
raw result, format_result (and hence get_result and succeeded) returns a
record with success = true, status queued (or in_progress mid-execution),
type collector and an empty output mapping: the externally visible success
defaults to true before any final result is stored. -/
theorem c10_default_result (ctx : TaskContext) (n : String)
    (hres : alookup ctx.results n = Option.none)
    (hraw : alookup ctx.rawResults n = Option.none)
    (hstat : alookup ctx.status n = Option.none ∨
      alookup ctx.status n = some "in_progress") :
    ∃ r, ctx.format_result (some n) = some r ∧ r.success = true ∧
      r.ttype = "collector" ∧ r.output = Value.vDict [] ∧
      (r.status = "queued" ∨ r.status = "in_progress") ∧
      ctx.get_result (some n) = some r ∧
      ctx.succeeded (some n) = some true := by
  refine ⟨ctx.formatFields n true "collector",
    format_result_fresh ctx n hres, rfl, rfl, ?_, ?_, ?_, ?_⟩
  · simp [TaskContext.formatFields, TaskContext.get_raw_result,
      TaskContext.resolveTaskName, hraw]
  · rcases hstat with h | h
    · exact Or.inl (by simp [TaskContext.formatFields, TaskContext.get_status,
        TaskContext.resolveTaskName, h])
    · exact Or.inr (by simp [TaskContext.formatFields, TaskContext.get_status,
        TaskContext.resolveTaskName, h])
  · rw [TaskContext.get_result, format_result_fresh ctx n hres]
  · rw [TaskContext.succeeded, format_result_fresh ctx n hres]
    rfl

theorem c2_dependency_gate_witness :
    ∃ rd, (runWrapper envOk metaC2 okBody ctxC2 RunLog.init).res = Except.ok rd ∧
      rd.status = "skipped" ∧ rd.success = false ∧
      rd.errors = ["Dependency " ++ q "missing" ++ " was not executed"] ∧
      runWrapper envOk metaC2 okBody ctxC2 RunLog.init
        = runWrapper envOk metaC2 raiseBody ctxC2 RunLog.init := by
  obtain ⟨⟨h1, _⟩, _⟩ :=
    c2_dependency_gate envOk metaC2 okBody raiseBody ctxC2 RunLog.init
      ["okdep"] ["later"] "missing" rfl
      (fun x hx => by
        simp only [List.mem_singleton] at hx
        subst hx
        exact ⟨rdOkFix, rfl, rfl⟩)
      rfl
  obtain ⟨rd, ha, hb, hc, hd2, he⟩ := h1 rfl
  refine ⟨rd, ha, hb, hc, ?_, he⟩
  rw [hd2]
  rfl

theorem c3_amended_witness :
    ∃ rd, (runWrapper envOk metaM1 (fun c => (c, Except.ok c3value))
        (TaskContext.init [] []) RunLog.init).res = Except.ok rd ∧
      rd.success = amendedShape c3value := by
  obtain ⟨rd, h1, h2, _, _⟩ :=
    c3_amended envOk metaM1 (TaskContext.init [] []) RunLog.init c3value rfl rfl
  exact ⟨rd, h1, h2⟩

theorem c4_auto_report_witness :
    ∃ rd, (runWrapper envFail metaC4 (fun c => (c, Except.ok violValue))
        (TaskContext.init [] []) RunLog.init).res = Except.ok rd ∧
      (runWrapper envFail metaC4 (fun c => (c, Except.ok violValue))
        (TaskContext.init [] []) RunLog.init).log.reportAttempts = ["v1"] ∧
      rd.success = true ∧
      ("Failed to create violation: " ++ "HTTP 500") ∈ rd.errors := by
  obtain ⟨rd, h1, h2, h3, h4, h5, h6⟩ :=
    c4_auto_report envFail metaC4 (TaskContext.init [] []) RunLog.init
      (Except.ok violValue) rfl rfl
  refine ⟨rd, h1, ?_, ?_, ?_⟩
  · rw [h4]
    rfl
  · exact (h6 "HTTP 500" rfl rfl rfl rfl).1
  · exact (h6 "HTTP 500" rfl rfl rfl rfl).2

theorem c6_subset_filter_witness :
    ∃ ctx2 log2,
      stageTwoStart envOk (fun _ => false) [c1task, c5aTask] ["t1"] [] []
        = some (ctx2, log2) ∧
      alookup ctx2.results "a_check" = Option.none ∧
      ∃ r, ctx2.format_result (some "a_check") = some r ∧
        r.success = true ∧ r.status = "queued" := by
  obtain ⟨ctx2, log2, h0, h1, r, h2, h3, h4, _, _, _⟩ :=
    c6_subset_filter envOk [c1task, c5aTask] ["t1"] [] [] "a_check"
      rfl rfl (by decide)
      (fun t ht => by
        rcases List.mem_cons.mp ht with rfl | ht2
        · exact ⟨Except.ok (.vDict [("data", .vDict [("x", .vInt 1)])]),
            fun c => rfl⟩
        · rcases List.mem_cons.mp ht2 with rfl | ht3
          · exact ⟨Except.ok (.vDict [("data", .vDict [("x", .vInt 1)])]),
              fun c => rfl⟩
          · simp at ht3)
  exact ⟨ctx2, log2, h0, h1, r, h2, h3, h4⟩

theorem c7_amended_witness :
    register_tasks [] [c7taskC, c7taskD] = [c7taskC, c7taskD] ∧
    (setattrTask [c7taskA] c7taskB).length = 1 ∧
    (setattrTask [c7taskA] c7taskB).find?
      (fun u => u.attrName == c7taskB.attrName) = some c7taskB := by
  refine ⟨?_, ?_, ?_⟩
  · exact (c7_amended [] c7taskA [c7taskC, c7taskD]).1 (by decide)
      (fun u hu => rfl)
  · exact ((c7_amended [c7taskA] c7taskB []).2 (by decide)).1
  · exact ((c7_amended [c7taskA] c7taskB []).2 (by decide)).2

theorem c8_amended_witness :
    (∃ d, alookup [("data", Value.vList [])] "data" = some d ∧
      isDictOrList d = true) ∧
    ∃ rd, (runWrapper envOk metaM1 (fun c => (c, Except.ok violValue))
        (TaskContext.init [] []) RunLog.init).res = Except.ok rd ∧
      rd.success = true := by
  obtain ⟨hd, rd, h1, h2, _, _⟩ :=
    c8_amended envOk metaM1 (TaskContext.init [] []) RunLog.init violValue
      ⟨[("data", Value.vList [])], true, []⟩ rfl rfl rfl
  exact ⟨hd, rd, h1, h2⟩

theorem c9_status_monotone_witness :
    ∃ ctx2 log2,
      runTasks envOk (fun _ => false) [] [c1task, c5aTask]
        (TaskContext.init [] []) RunLog.init = some (ctx2, log2) ∧
      statusStep ((TaskContext.init [] []).get_status (some "t1"))
        (ctx2.get_status (some "t1")) ∧
      (∀ (m : TaskMeta) (c : TaskContext),
        (wrapperEntry m c).get_status (some m.name) = "in_progress") := by
  obtain ⟨ctx2, log2, h0, h1, h2, h3, h4⟩ :=
    c9_status_monotone envOk [] [c1task, c5aTask]
      (TaskContext.init [] []) RunLog.init (by decide)
      (fun t ht => by
        rcases List.mem_cons.mp ht with rfl | ht2
        · exact ⟨Except.ok (.vDict [("data", .vDict [("x", .vInt 1)])]),
            fun c => rfl⟩
        · rcases List.mem_cons.mp ht2 with rfl | ht3
          · exact ⟨Except.ok (.vDict [("data", .vDict [("x", .vInt 1)])]),
              fun c => rfl⟩
          · simp at ht3)
      (fun n r h => by simp [TaskContext.init, alookup] at h)
      (fun t ht => rfl)
      (fun t ht => rfl)
  exact ⟨ctx2, log2, h0, h1 "t1", h4⟩

theorem c10_default_result_witness :
    ∃ r, (TaskContext.init [] []).format_result (some "ghost") = some r ∧
      r.success = true ∧ r.ttype = "collector" ∧
      (r.status = "queued" ∨ r.status = "in_progress") ∧
      (TaskContext.init [] []).succeeded (some "ghost") = some true := by
  obtain ⟨r, h1, h2, h3, h4, h5, h6, h7⟩ :=
    c10_default_result (TaskContext.init [] []) "ghost" rfl rfl (Or.inl rfl)
  exact ⟨r, h1, h2, h3, h5, h7⟩
